import Mathlib

/-!
# Verification of the loretex Markdown-to-LaTeX conversion engine

Shallow embedding of the `loretex.conversion` package (parser, inline
transformer, LaTeX generator, configuration model, engine) in Lean 4,
with theorems settling the frozen claims about the specification.

Python strings are modelled as `List Char` (`Str`).  String-valued
Python operations (`strip`, `split`, `replace`, `str.format`, …) are
re-implemented with Python semantics on the ASCII fragment exercised by
the code (the regular expressions of the source only involve ASCII
classes; `\s`/`str.strip` are modelled by the ASCII whitespace set).
-/

namespace Loretex

/-- Python strings, modelled as lists of characters. -/
abbrev Str := List Char

/-- Characters treated as whitespace by Python's `str.strip()` and the
regex class `\s` (ASCII fragment). -/
def pyIsSpace (c : Char) : Bool :=
  c = ' ' || c = '\t' || c = '\n' || c = '\x0d' || c = '\x0b' || c = '\x0c'

/-- Python `str.lstrip()` (no argument: strip leading whitespace). -/
def pyLstrip (s : Str) : Str := s.dropWhile (fun c => pyIsSpace c)

/-- Python `str.rstrip()` (no argument: strip trailing whitespace). -/
def pyRstrip (s : Str) : Str := (s.reverse.dropWhile (fun c => pyIsSpace c)).reverse

/-- Python `str.strip()` (no argument). -/
def pyStrip (s : Str) : Str := pyRstrip (pyLstrip s)

/-- Python `str.lstrip(chars)`: drop leading characters belonging to `chars`. -/
def pyLstripChars (s : Str) (chars : List Char) : Str :=
  s.dropWhile (fun c => chars.contains c)

/-- Python `str.rstrip(chars)`. -/
def pyRstripChars (s : Str) (chars : List Char) : Str :=
  (s.reverse.dropWhile (fun c => chars.contains c)).reverse

/-- Python `str.strip(chars)`. -/
def pyStripChars (s : Str) (chars : List Char) : Str :=
  pyRstripChars (pyLstripChars s chars) chars

/-- Python `sep.join(parts)` for a one-or-more list of parts. -/
def pyJoin (sep : Str) : List Str → Str
  | [] => []
  | [p] => p
  | p :: ps => p ++ sep ++ pyJoin sep ps

/-- Accumulator loop of Python `s.split(sep)` for a one-character
separator (the only form the source uses: `";"`, `"|"`). -/
def pySplitChar (sep : Char) : Str → Str → List Str
  | acc, [] => [acc.reverse]
  | acc, c :: cs =>
    if c = sep then acc.reverse :: pySplitChar sep [] cs
    else pySplitChar sep (c :: acc) cs

/-- Python `s.split(sep)` for a one-character separator;
`"".split(sep) == [""]`. -/
def pySplit1 (s : Str) (sep : Char) : List Str := pySplitChar sep [] s

/-- Python `s.split(sep, 1)`: split at the first occurrence only. -/
def pySplitOnce : Str → Str → Option (Str × Str)
  | [], _ => none
  | c :: cs, sep =>
    if sep.isPrefixOf (c :: cs) then
      some ([], (c :: cs).drop sep.length)
    else
      match pySplitOnce cs sep with
      | some (pre, post) => some (c :: pre, post)
      | none => none

/-- Substring containment, Python `sub in s` (for non-empty `sub`). -/
def pyContains : Str → Str → Bool
  | [], sub => sub.isPrefixOf []
  | c :: cs, sub => sub.isPrefixOf (c :: cs) || pyContains cs sub

/-- Fuel-driven core of Python `s.replace(old, new)` for non-empty `old`:
scan left to right, replacing non-overlapping occurrences. -/
def pyReplaceF (old new : Str) : Nat → Str → Str
  | 0, s => s
  | _ + 1, [] => []
  | fuel + 1, c :: cs =>
    if old.isPrefixOf (c :: cs) then
      new ++ pyReplaceF old new fuel ((c :: cs).drop old.length)
    else
      c :: pyReplaceF old new fuel cs

/-- Python `s.replace(old, new)`.  For empty `old`, Python interleaves
`new` around every character; for non-empty `old` the fuelled scan with
fuel `s.length` is exact (each step consumes at least one character). -/
def pyReplace (s old new : Str) : Str :=
  match old with
  | [] => s.foldr (fun c acc => new ++ c :: acc) new
  | _ :: _ => pyReplaceF old new s.length s

/-- `str.startswith`. -/
def pyStartswith (s pre : Str) : Bool := pre.isPrefixOf s

/-- `str.endswith`. -/
def pyEndswith (s suf : Str) : Bool := suf.isSuffixOf s

/-- Python `source.splitlines()` restricted to the line boundaries `\n`,
`\r\n` and `\r` (the only ones appearing in the repository's inputs).
A trailing terminator produces no trailing empty line. -/
def pySplitlinesGo : Str → Str → List Str
  | acc, [] => if acc.isEmpty then [] else [acc.reverse]
  | acc, '\n' :: cs => acc.reverse :: pySplitlinesGo [] cs
  | acc, '\x0d' :: '\n' :: cs => acc.reverse :: pySplitlinesGo [] cs
  | acc, '\x0d' :: cs => acc.reverse :: pySplitlinesGo [] cs
  | acc, c :: cs => pySplitlinesGo (c :: acc) cs

/-- Python `source.splitlines()`, except that a wholly empty source
yields `[]` (which the general case of `pySplitlinesGo` also produces). -/
def pySplitlines (s : Str) : List Str := pySplitlinesGo [] s

/-- Python `"\n".join(lines)` composed with nothing: joining lines. -/
def joinNewline (lines : List Str) : Str := pyJoin ['\n'] lines

/-- Python `dict.get(key)` on an association list: first matching key. -/
def dictGet {α β : Type} [DecidableEq α] : List (α × β) → α → Option β
  | [], _ => none
  | (k, v) :: kvs, key => if k = key then some v else dictGet kvs key

/-- Python dict item assignment `d[k] = v`: replace in place when the
key exists, append otherwise (CPython insertion-order semantics). -/
def dictInsert {α β : Type} [DecidableEq α] : List (α × β) → α → β → List (α × β)
  | [], k, v => [(k, v)]
  | (k', v') :: rest, k, v =>
    if k' = k then (k, v) :: rest else (k', v') :: dictInsert rest k v

-- ===================================================================
-- Default constants: `loretex/conversion/constants.py`
-- ===================================================================

/-- `DEFAULT_SECTION_COMMANDS` (constants.py lines 10-15). -/
def DEFAULT_SECTION_COMMANDS : List (Int × Str) :=
  [(1, "section".data), (2, "subsection".data), (3, "subsubsection".data),
   (4, "paragraph".data)]

/-- `DEFAULT_TEXTTT_ESCAPE_MAP` (constants.py lines 19-30). -/
def DEFAULT_TEXTTT_ESCAPE_MAP : List (Str × Str) :=
  [("\\".data, "\\textbackslash\x7b\x7d".data),
   ("\x7b".data, "\\\x7b".data),
   ("\x7d".data, "\\\x7d".data),
   ("#".data, "\\#".data),
   ("$".data, "\\$".data),
   ("%".data, "\\%".data),
   ("&".data, "\\&".data),
   ("_".data, "\\_".data),
   ("~".data, "\\textasciitilde\x7b\x7d".data),
   ("^".data, "\\textasciicircum\x7b\x7d".data)]

/-- `DEFAULT_CHARACTER_NORMALIZATION` (constants.py lines 34-40):
replacement pairs `(source, target)` applied in order. -/
def DEFAULT_CHARACTER_NORMALIZATION : List (Str × Str) :=
  [("\u2019".data, "'".data),
   ("≤".data, "\\leq".data),
   ("≥".data, "\\geq".data),
   ("œ".data, "oe".data),
   ("–".data, "-".data)]

/-- `DEFAULT_FIGURES_PDF_PATH` (constants.py line 44). -/
def DEFAULT_FIGURES_PDF_PATH : Str := "../figures-pdfs".data

/-- `DEFAULT_CALLOUT_ENV_TEMPLATE` (constants.py line 48). -/
def DEFAULT_CALLOUT_ENV_TEMPLATE : Str := "\x7btype\x7dbox".data

/-- `DEFAULT_IMAGE_BLOCK_TEMPLATE` (constants.py lines 52-57).  The
Python literal is a non-raw string: `\\\\` denotes two backslash
characters and `\\n` denotes a backslash followed by `n`. -/
def DEFAULT_IMAGE_BLOCK_TEMPLATE : Str :=
  "\\\\begin\x7b\x7bcenter\x7d\x7d\\n\x7binclude_command\x7d[width=\x7bwidth\x7d\x7bunit\x7d]\x7b\x7b\x7bpath_prefix\x7d/\x7bsource\x7d\x7bpath_suffix\x7d\x7d\x7d\\n\\\\end\x7b\x7bcenter\x7d\x7d".data

-- ===================================================================
-- Python value universe for configuration mappings
-- ===================================================================

/-- Hashable Python values used as dict keys by the configuration layer. -/
inductive PyKey where
  | none
  | bool (b : Bool)
  | int (n : Int)
  | str (s : Str)
deriving DecidableEq

/-- Python values appearing in configuration mappings (the JSON/YAML
universe used by the configuration layer: `None`, booleans, integers,
strings, lists, tuples and dicts).  Dicts are modelled as
insertion-ordered association lists with `PyKey` keys. -/
inductive PyVal where
  | none
  | bool (b : Bool)
  | int (n : Int)
  | str (s : Str)
  | list (xs : List PyVal)
  | tuple (xs : List PyVal)
  | dict (kvs : List (PyKey × PyVal))

/-- Python exceptions raised by the configuration and conversion code. -/
inductive PyErr where
  | typeError (msg : Str)
  | valueError (msg : Str)
  | keyError (msg : Str)
  | attributeError (obj attr : Str)
deriving DecidableEq

/-- Python truthiness (`bool(x)`) on the `PyVal` universe. -/
def pyTruthy : PyVal → Bool
  | .none => false
  | .bool b => b
  | .int n => n ≠ 0
  | .str s => !s.isEmpty
  | .list xs => !xs.isEmpty
  | .tuple xs => !xs.isEmpty
  | .dict kvs => !kvs.isEmpty

/-- Python `str(key)` on dict keys. -/
def pyKeyStr : PyKey → Str
  | .none => "None".data
  | .bool true => "True".data
  | .bool false => "False".data
  | .int n => (toString n).data
  | .str s => s

/-- Python `repr` for container elements; only its value on strings and
scalars matters for the theorems below (the round-trip law applies
`str` to stored string fields only). -/
def pyReprOf : PyVal → Str
  | .none => "None".data
  | .bool true => "True".data
  | .bool false => "False".data
  | .int n => (toString n).data
  | .str s => '\'' :: s ++ ['\'']
  | .list xs => '[' :: pyJoin ", ".data (xs.attach.map fun x => pyReprOf x.1) ++ [']']
  | .tuple xs => '(' :: pyJoin ", ".data (xs.attach.map fun x => pyReprOf x.1) ++ [')']
  | .dict kvs =>
    '\x7b' :: pyJoin ", ".data
      (kvs.attach.map fun kv => pyKeyStr kv.1.1 ++ ": ".data ++ pyReprOf kv.1.2) ++ ['\x7d']
decreasing_by
  · have h := List.sizeOf_lt_of_mem x.2
    simp only [PyVal.list.sizeOf_spec]
    omega
  · have h := List.sizeOf_lt_of_mem x.2
    simp only [PyVal.tuple.sizeOf_spec]
    omega
  · have h := List.sizeOf_lt_of_mem kv.2
    have h2 : sizeOf kv.1.2 < sizeOf kv.1 := by
      obtain ⟨⟨a, b⟩, hm⟩ := kv
      simp only [Prod.mk.sizeOf_spec]
      omega
    simp only [PyVal.dict.sizeOf_spec]
    omega

/-- Python `str(x)` on the `PyVal` universe: identity on strings,
`repr`-style rendering on containers. -/
def pyStrOf : PyVal → Str
  | .str s => s
  | .none => "None".data
  | .bool true => "True".data
  | .bool false => "False".data
  | .int n => (toString n).data
  | v => pyReprOf v

/-- Python `int(x)` on strings: optional surrounding whitespace, an
optional sign and a non-empty digit run. -/
def pyIntOfStr (s : Str) : Except PyErr Int :=
  let t := pyStrip s
  let signDigits : Int × Str :=
    match t with
    | '-' :: rest => (-1, rest)
    | '+' :: rest => (1, rest)
    | rest => (1, rest)
  if signDigits.2.isEmpty || !signDigits.2.all (fun c => c.isDigit) then
    .error (.valueError "invalid literal for int".data)
  else
    .ok (signDigits.1 * (signDigits.2.foldl (fun acc c => acc * 10 + (c.toNat - '0'.toNat)) 0 : Nat))

/-- Python `int(x)`: exact on ints and bools, digit-string parsing on
strings, `TypeError` on everything else. -/
def pyIntOf : PyVal → Except PyErr Int
  | .int n => .ok n
  | .bool true => .ok 1
  | .bool false => .ok 0
  | .str s => pyIntOfStr s
  | _ => .error (.typeError "int argument".data)

/-- Python `int(key)` on dict keys. -/
def pyKeyInt : PyKey → Except PyErr Int
  | .int n => .ok n
  | .bool true => .ok 1
  | .bool false => .ok 0
  | .str s => pyIntOfStr s
  | .none => .error (.typeError "int argument".data)

/-- Python `dict.get(key, default)` on an insertion-ordered
association list. -/
def pyDictGet (kvs : List (PyKey × PyVal)) (key : PyKey) (dflt : PyVal) : PyVal :=
  match dictGet kvs key with
  | some v => v
  | Option.none => dflt

/-- Python iteration `for x in v` on the `PyVal` universe: lists and
tuples yield elements, strings yield one-character strings, dicts yield
keys; other values raise `TypeError`. -/
def pyIter : PyVal → Except PyErr (List PyVal)
  | .list xs => .ok xs
  | .tuple xs => .ok xs
  | .str s => .ok (s.map fun c => .str [c])
  | .dict kvs => .ok (kvs.map fun kv =>
      match kv.1 with
      | .none => PyVal.none
      | .bool b => .bool b
      | .int n => .int n
      | .str s => .str s)
  | _ => .error (.typeError "not iterable".data)

-- ===================================================================
-- Configuration model: `loretex/conversion/config.py`
-- ===================================================================

/-- `HeadingConfig` (config.py lines 43-56): heading conversion rules.
`commands` is the per-level command mapping (a Python `dict[int, str]`,
modelled as an association list with unique keys). -/
structure HeadingConfig where
  anchor_level : Int
  commands : List (Int × Str)
  fallback_command : Str
deriving DecidableEq

/-- `_coerce_int_mapping` (config.py lines 538-543): falsy values give a
copy of `DEFAULT_SECTION_COMMANDS`; non-mapping values raise
`TypeError`; mappings are rebuilt as `{int(key): str(val)}`. -/
def coerceIntMapping (v : PyVal) : Except PyErr (List (Int × Str)) :=
  if !pyTruthy v then .ok DEFAULT_SECTION_COMMANDS
  else
    match v with
    | .dict kvs =>
      kvs.foldlM (fun acc kv => do
        let k ← pyKeyInt kv.1
        pure (dictInsert acc k (pyStrOf kv.2))) []
    | _ => .error (.typeError "Expected mapping for headings.commands".data)

/-- `_coerce_str_mapping` (config.py lines 546-551): falsy values give
`{}`; non-mapping values raise `TypeError`; mappings are rebuilt as
`{str(key): str(val)}`. -/
def coerceStrMapping (v : PyVal) : Except PyErr (List (Str × Str)) :=
  if !pyTruthy v then .ok []
  else
    match v with
    | .dict kvs =>
      .ok (kvs.foldl (fun acc kv => dictInsert acc (pyKeyStr kv.1) (pyStrOf kv.2)) [])
    | _ => .error (.typeError "Expected mapping for environment maps".data)

/-- `HeadingConfig.resolve_command` (config.py lines 51-56):
`relative_level = markdown_level - anchor_level + 1`, clamped below at 1,
then looked up in `commands`, defaulting to `fallback_command`. -/
def HeadingConfig.resolve_command (cfg : HeadingConfig) (markdown_level : Int) : Str :=
  let relative_level := markdown_level - cfg.anchor_level + 1
  let relative_level := if relative_level < 1 then 1 else relative_level
  (dictGet cfg.commands relative_level).getD cfg.fallback_command

/-- `InlineTransformer._normalize_characters` (inline.py lines 120-125):
fold the configured `(source, target)` replacement pairs over the text. -/
def normalizeCharacters (table : List (Str × Str)) (text : Str) : Str :=
  table.foldl (fun acc p => pyReplace acc p.1 p.2) text

/-- `InlineConfig` (config.py lines 59-70): inline formatting rules.
The dataclass declares exactly these six fields; in particular it
declares neither `custom_markers` nor `inline_math_template`, which
inline.py lines 157 and 165 nevertheless read.
`character_normalization` stores the tuples produced by `from_dict`'s
`tuple(tuple(pair) for pair in …)` coercion. -/
structure InlineConfig where
  bold_command : Str
  italic_command : Str
  code_command : Str
  line_break_command : Str
  texttt_escape_map : List (Str × Str)
  character_normalization : List (List PyVal)

/-- `LinkConfig` (config.py lines 73-96). -/
structure LinkConfig where
  external_link_template : Str
  url_only_template : Str
  autolink_template : Str
  internal_ref_template : Str

/-- `CitationConfig` (config.py lines 99-116). -/
structure CitationConfig where
  cite_template : Str
  cite_with_locator_template : Str
  separator : Str
  multi_cite_separator : Str

/-- `FootnoteConfig` (config.py lines 119-127). -/
structure FootnoteConfig where
  footnote_template : Str

/-- `ImageConfig` (config.py lines 130-162); `base_dir` is stored
uncoerced (`str | None` in the annotation, any value in practice). -/
structure ImageConfig where
  path_prefix : Str
  path_suffix : Str
  width_unit : Str
  include_command : Str
  block_template : Str
  base_dir : PyVal
  validate_paths : Bool

/-- `ListConfig` (config.py lines 165-170). -/
structure ListConfig where
  unordered_environment : Str
  ordered_environment : Str

/-- `CodeBlockConfig` (config.py lines 173-189); `options_template` is
stored uncoerced (`str | None`). -/
structure CodeBlockConfig where
  environment : Str
  options_template : PyVal

/-- `CalloutConfig` (config.py lines 192-214); `title_template` is
stored uncoerced (`str | None`). -/
structure CalloutConfig where
  environment_map : List (Str × Str)
  default_environment_template : Str
  title_template : PyVal
  type_normalization : Str

/-- `TableConfig` (config.py lines 217-224). -/
structure TableConfig where
  environment : Str
  include_hlines : Bool
  multicolumn_align : Str
  multirow_command : Str

/-- `ParsingConfig` (config.py lines 227-231). -/
structure ParsingConfig where
  strip_yaml_front_matter : Bool

/-- `MathConfig` (config.py lines 234-243). -/
structure MathConfig where
  block_style : Str

/-- `LabelConfig` (config.py lines 246-253). -/
structure LabelConfig where
  auto_label_headings : Bool
  label_template : Str
  label_prefix : Str
  label_separator : Str

/-- `WikiLinkConfig` (config.py lines 256-270). -/
structure WikiLinkConfig where
  link_template : Str
  alias_template : Str
  label_separator : Str

/-- `ConversionConfig` (config.py lines 273-290): the aggregate frozen
configuration.  Note that it declares no field named `horizontal_rule`,
which generator.py line 113 nevertheless reads. -/
structure ConversionConfig where
  headings : HeadingConfig
  inline : InlineConfig
  links : LinkConfig
  citations : CitationConfig
  footnotes : FootnoteConfig
  images : ImageConfig
  lists : ListConfig
  code_blocks : CodeBlockConfig
  callouts : CalloutConfig
  tables : TableConfig
  parsing : ParsingConfig
  math : MathConfig
  labels : LabelConfig
  wiki_links : WikiLinkConfig

/-- The default character-normalization table as the Python constant
object (a tuple of 2-tuples of strings). -/
def DEFAULT_CHARACTER_NORMALIZATION_PY : PyVal :=
  .tuple (DEFAULT_CHARACTER_NORMALIZATION.map fun p => .tuple [.str p.1, .str p.2])

/-- The stored form of the default character-normalization table. -/
def defaultCharacterNormalization : List (List PyVal) :=
  DEFAULT_CHARACTER_NORMALIZATION.map fun p => [.str p.1, .str p.2]

/-- Dataclass defaults of `HeadingConfig`. -/
def defaultHeadingConfig : HeadingConfig :=
  ⟨1, DEFAULT_SECTION_COMMANDS, "paragraph".data⟩

/-- Dataclass defaults of `InlineConfig`. -/
def defaultInlineConfig : InlineConfig :=
  ⟨"textbf".data, "textit".data, "texttt".data, "newline".data,
   DEFAULT_TEXTTT_ESCAPE_MAP, defaultCharacterNormalization⟩

/-- Dataclass defaults of `LinkConfig`. -/
def defaultLinkConfig : LinkConfig :=
  ⟨"\\href\x7b\x7b\x7burl\x7d\x7d\x7d\x7b\x7b\x7btext\x7d\x7d\x7d".data,
   "\\url\x7b\x7b\x7burl\x7d\x7d\x7d".data,
   "\\url\x7b\x7b\x7burl\x7d\x7d\x7d".data,
   "\\ref\x7b\x7b\x7blabel\x7d\x7d\x7d".data⟩

/-- Dataclass defaults of `CitationConfig`. -/
def defaultCitationConfig : CitationConfig :=
  ⟨"\\cite\x7b\x7b\x7bkeys\x7d\x7d\x7d".data,
   "\\cite[\x7blocator\x7d]\x7b\x7b\x7bkeys\x7d\x7d\x7d".data,
   ",".data, " ".data⟩

/-- Dataclass defaults of `FootnoteConfig`. -/
def defaultFootnoteConfig : FootnoteConfig :=
  ⟨"\\footnote\x7b\x7b\x7btext\x7d\x7d\x7d".data⟩

/-- Dataclass defaults of `ImageConfig`. -/
def defaultImageConfig : ImageConfig :=
  ⟨DEFAULT_FIGURES_PDF_PATH, ".pdf".data, "\\htmlpx".data,
   "\\includegraphics".data, DEFAULT_IMAGE_BLOCK_TEMPLATE, .none, false⟩

/-- Dataclass defaults of `ListConfig`. -/
def defaultListConfig : ListConfig := ⟨"itemize".data, "enumerate".data⟩

/-- Dataclass defaults of `CodeBlockConfig`. -/
def defaultCodeBlockConfig : CodeBlockConfig := ⟨"lstlisting".data, .none⟩

/-- Dataclass defaults of `CalloutConfig`. -/
def defaultCalloutConfig : CalloutConfig :=
  ⟨[], DEFAULT_CALLOUT_ENV_TEMPLATE, .str "[\x7btitle\x7d]".data, "lower".data⟩

/-- Dataclass defaults of `TableConfig`. -/
def defaultTableConfig : TableConfig :=
  ⟨"tabular".data, true, "c".data, "multirow".data⟩

/-- Dataclass defaults of `ParsingConfig`. -/
def defaultParsingConfig : ParsingConfig := ⟨false⟩

/-- Dataclass defaults of `MathConfig`. -/
def defaultMathConfig : MathConfig := ⟨"dollars".data⟩

/-- Dataclass defaults of `LabelConfig`. -/
def defaultLabelConfig : LabelConfig :=
  ⟨false, "\\label\x7b\x7b\x7blabel\x7d\x7d\x7d".data, "".data, "-".data⟩

/-- Dataclass defaults of `WikiLinkConfig`. -/
def defaultWikiLinkConfig : WikiLinkConfig :=
  ⟨"\\ref\x7b\x7b\x7blabel\x7d\x7d\x7d".data,
   "\\ref\x7b\x7b\x7blabel\x7d\x7d\x7d".data, "-".data⟩

/-- `ConversionConfig()` with all dataclass defaults. -/
def defaultConversionConfig : ConversionConfig :=
  ⟨defaultHeadingConfig, defaultInlineConfig, defaultLinkConfig,
   defaultCitationConfig, defaultFootnoteConfig, defaultImageConfig,
   defaultListConfig, defaultCodeBlockConfig, defaultCalloutConfig,
   defaultTableConfig, defaultParsingConfig, defaultMathConfig,
   defaultLabelConfig, defaultWikiLinkConfig⟩

/-- `data.get(key, {})` followed by use as a mapping: returns the
key-value list when the entry is a dict, raises `AttributeError` (as the
subsequent `.get` attribute access would) otherwise. -/
def sectionData (kvs : List (PyKey × PyVal)) (key : String) : Except PyErr (List (PyKey × PyVal)) :=
  match pyDictGet kvs (.str key.data) (.dict []) with
  | .dict d => .ok d
  | _ => .error (.attributeError "object".data "get".data)

/-- `data.get(key, data.get(alt, {}))` followed by use as a mapping
(the `lists`/`list` and `code_blocks`/`code-blocks` fallbacks of
config.py lines 303-304). -/
def sectionDataOr (kvs : List (PyKey × PyVal)) (key alt : String) :
    Except PyErr (List (PyKey × PyVal)) :=
  match pyDictGet kvs (.str key.data) (pyDictGet kvs (.str alt.data) (.dict [])) with
  | .dict d => .ok d
  | _ => .error (.attributeError "object".data "get".data)

/-- Shorthand for `section.get(key, default)` with a string key. -/
def getKV (d : List (PyKey × PyVal)) (key : String) (dflt : PyVal) : PyVal :=
  pyDictGet d (.str key.data) dflt

/-- String coercion of `section.get(key, default)`. -/
def getStr (d : List (PyKey × PyVal)) (key : String) (dflt : String) : Str :=
  pyStrOf (getKV d key (.str dflt.data))

/-- The `headings = HeadingConfig(…)` build (config.py lines 312-316). -/
def fromDictHeadings (d : List (PyKey × PyVal)) : Except PyErr HeadingConfig := do
  let anchor_level ← pyIntOf (getKV d "anchor_level" (.int 1))
  let commands ← coerceIntMapping (getKV d "commands" .none)
  pure ⟨anchor_level, commands, getStr d "fallback_command" "paragraph"⟩

/-- The `inline = InlineConfig(…)` build (config.py lines 318-331),
including the `or dict(DEFAULT_TEXTTT_ESCAPE_MAP)` fallback and the
`tuple(tuple(pair) for pair in …)` coercion. -/
def fromDictInline (d : List (PyKey × PyVal)) : Except PyErr InlineConfig := do
  let escape_map ← coerceStrMapping (getKV d "texttt_escape_map" .none)
  let escape_map := if escape_map.isEmpty then DEFAULT_TEXTTT_ESCAPE_MAP else escape_map
  let char_norm_src ← pyIter
    (getKV d "character_normalization" DEFAULT_CHARACTER_NORMALIZATION_PY)
  let character_normalization ← char_norm_src.mapM pyIter
  pure
    ⟨getStr d "bold_command" "textbf",
     getStr d "italic_command" "textit",
     getStr d "code_command" "texttt",
     getStr d "line_break_command" "newline",
     escape_map, character_normalization⟩

/-- The `links = LinkConfig(…)` build (config.py lines 333-346). -/
def fromDictLinks (d : List (PyKey × PyVal)) : LinkConfig :=
  ⟨getStr d "external_link_template" "\\href\x7burl\x7d\x7btext\x7d",
   getStr d "url_only_template" "\\url\x7burl\x7d",
   getStr d "autolink_template" "\\url\x7burl\x7d",
   getStr d "internal_ref_template" "\\ref\x7b\x7b\x7blabel\x7d\x7d\x7d"⟩

/-- The `citations = CitationConfig(…)` build (config.py lines 348-360). -/
def fromDictCitations (d : List (PyKey × PyVal)) : CitationConfig :=
  ⟨getStr d "cite_template" "\\cite\x7b\x7b\x7bkeys\x7d\x7d\x7d",
   getStr d "cite_with_locator_template" "\\cite[\x7blocator\x7d]\x7b\x7b\x7bkeys\x7d\x7d\x7d",
   getStr d "separator" ",",
   getStr d "multi_cite_separator" " "⟩

/-- The `footnotes = FootnoteConfig(…)` build (config.py lines 362-366). -/
def fromDictFootnotes (d : List (PyKey × PyVal)) : FootnoteConfig :=
  ⟨getStr d "footnote_template" "\\footnote\x7b\x7b\x7btext\x7d\x7d\x7d"⟩

/-- The `images = ImageConfig(…)` build (config.py lines 368-381). -/
def fromDictImages (d : List (PyKey × PyVal)) : ImageConfig :=
  ⟨pyStrOf (getKV d "path_prefix" (.str DEFAULT_FIGURES_PDF_PATH)),
   getStr d "path_suffix" ".pdf",
   getStr d "width_unit" "\\htmlpx",
   getStr d "include_command" "\\includegraphics",
   pyStrOf (getKV d "block_template" (.str DEFAULT_IMAGE_BLOCK_TEMPLATE)),
   getKV d "base_dir" .none,
   pyTruthy (getKV d "validate_paths" (.bool false))⟩

/-- The `lists = ListConfig(…)` build (config.py lines 383-388). -/
def fromDictLists (d : List (PyKey × PyVal)) : ListConfig :=
  ⟨getStr d "unordered_environment" "itemize",
   getStr d "ordered_environment" "enumerate"⟩

/-- The `code_blocks = CodeBlockConfig(…)` build (config.py lines 390-393). -/
def fromDictCodeBlocks (d : List (PyKey × PyVal)) : CodeBlockConfig :=
  ⟨getStr d "environment" "lstlisting",
   getKV d "options_template" .none⟩

/-- The `callouts = CalloutConfig(…)` build (config.py lines 395-402). -/
def fromDictCallouts (d : List (PyKey × PyVal)) : Except PyErr CalloutConfig := do
  let environment_map ← coerceStrMapping (getKV d "environment_map" .none)
  pure
    ⟨environment_map,
     pyStrOf (getKV d "default_environment_template" (.str DEFAULT_CALLOUT_ENV_TEMPLATE)),
     getKV d "title_template" (.str "[\x7btitle\x7d]".data),
     getStr d "type_normalization" "lower"⟩

/-- The `tables = TableConfig(…)` build (config.py lines 404-409). -/
def fromDictTables (d : List (PyKey × PyVal)) : TableConfig :=
  ⟨getStr d "environment" "tabular",
   pyTruthy (getKV d "include_hlines" (.bool true)),
   getStr d "multicolumn_align" "c",
   getStr d "multirow_command" "multirow"⟩

/-- The `ParsingConfig(…)` build (config.py lines 422-426). -/
def fromDictParsing (d : List (PyKey × PyVal)) : ParsingConfig :=
  ⟨pyTruthy (getKV d "strip_yaml_front_matter" (.bool false))⟩

/-- The `MathConfig(…)` build (config.py lines 427-429). -/
def fromDictMath (d : List (PyKey × PyVal)) : MathConfig :=
  ⟨getStr d "block_style" "dollars"⟩

/-- The `LabelConfig(…)` build (config.py lines 430-439). -/
def fromDictLabels (d : List (PyKey × PyVal)) : LabelConfig :=
  ⟨pyTruthy (getKV d "auto_label_headings" (.bool false)),
   getStr d "label_template" "\\label\x7b\x7b\x7blabel\x7d\x7d\x7d",
   getStr d "label_prefix" "",
   getStr d "label_separator" "-"⟩

/-- The `WikiLinkConfig(…)` build (config.py lines 440-450). -/
def fromDictWikiLinks (d : List (PyKey × PyVal)) : WikiLinkConfig :=
  ⟨getStr d "link_template" "\\ref\x7b\x7b\x7blabel\x7d\x7d\x7d",
   getStr d "alias_template" "\\ref\x7b\x7b\x7blabel\x7d\x7d\x7d",
   getStr d "label_separator" "-"⟩

/-- The body of `from_dict` on a truthy mapping argument. -/
def fromDictKVs (kvs : List (PyKey × PyVal)) : Except PyErr ConversionConfig := do
  let headings_data ← sectionData kvs "headings"
  let inline_data ← sectionData kvs "inline"
  let links_data ← sectionData kvs "links"
  let citations_data ← sectionData kvs "citations"
  let footnotes_data ← sectionData kvs "footnotes"
  let images_data ← sectionData kvs "images"
  let lists_data ← sectionDataOr kvs "lists" "list"
  let code_blocks_data ← sectionDataOr kvs "code_blocks" "code-blocks"
  let callouts_data ← sectionData kvs "callouts"
  let tables_data ← sectionData kvs "tables"
  let parsing_data ← sectionData kvs "parsing"
  let math_data ← sectionData kvs "math"
  let labels_data ← sectionData kvs "labels"
  let wiki_links_data ← sectionData kvs "wiki_links"
  let headings ← fromDictHeadings headings_data
  let inline ← fromDictInline inline_data
  let callouts ← fromDictCallouts callouts_data
  pure
    ⟨headings, inline, fromDictLinks links_data, fromDictCitations citations_data,
     fromDictFootnotes footnotes_data, fromDictImages images_data,
     fromDictLists lists_data, fromDictCodeBlocks code_blocks_data, callouts,
     fromDictTables tables_data, fromDictParsing parsing_data,
     fromDictMath math_data, fromDictLabels labels_data,
     fromDictWikiLinks wiki_links_data⟩

/-- `ConversionConfig.from_dict` (config.py lines 292-451), transcribed
section by section (the sub-config builders above).  A falsy argument
yields the default configuration; a truthy non-mapping raises at its
first attribute access; each section is read with `data.get(…, {})` and
its fields are coerced exactly as in the source.  The source evaluates
the coercing sub-config constructors in order; here only the
error-raising ones (`headings`, `inline`, `callouts`) are effectful, so
the relative order of the non-raising builds is immaterial. -/
def fromDict (data : PyVal) : Except PyErr ConversionConfig :=
  if !pyTruthy data then .ok defaultConversionConfig
  else
    match data with
    | .dict kvs => fromDictKVs kvs
    | _ => .error (.attributeError "object".data "get".data)

/-- The `"headings"` section of `to_dict` (config.py lines 455-459). -/
def toDictHeadings (h : HeadingConfig) : List (PyKey × PyVal) :=
  [(.str "anchor_level".data, .int h.anchor_level),
   (.str "commands".data,
     .dict (h.commands.map fun kv => (PyKey.int kv.1, PyVal.str kv.2))),
   (.str "fallback_command".data, .str h.fallback_command)]

/-- The `"inline"` section of `to_dict` (config.py lines 460-467). -/
def toDictInline (i : InlineConfig) : List (PyKey × PyVal) :=
  [(.str "bold_command".data, .str i.bold_command),
   (.str "italic_command".data, .str i.italic_command),
   (.str "code_command".data, .str i.code_command),
   (.str "line_break_command".data, .str i.line_break_command),
   (.str "texttt_escape_map".data,
     .dict (i.texttt_escape_map.map fun kv => (PyKey.str kv.1, PyVal.str kv.2))),
   (.str "character_normalization".data,
     .list (i.character_normalization.map PyVal.tuple))]

/-- The `"links"` section of `to_dict` (config.py lines 468-473). -/
def toDictLinks (l : LinkConfig) : List (PyKey × PyVal) :=
  [(.str "external_link_template".data, .str l.external_link_template),
   (.str "url_only_template".data, .str l.url_only_template),
   (.str "autolink_template".data, .str l.autolink_template),
   (.str "internal_ref_template".data, .str l.internal_ref_template)]

/-- The `"citations"` section of `to_dict` (config.py lines 474-479). -/
def toDictCitations (ci : CitationConfig) : List (PyKey × PyVal) :=
  [(.str "cite_template".data, .str ci.cite_template),
   (.str "cite_with_locator_template".data, .str ci.cite_with_locator_template),
   (.str "separator".data, .str ci.separator),
   (.str "multi_cite_separator".data, .str ci.multi_cite_separator)]

/-- The `"footnotes"` section of `to_dict` (config.py lines 480-482). -/
def toDictFootnotes (f : FootnoteConfig) : List (PyKey × PyVal) :=
  [(.str "footnote_template".data, .str f.footnote_template)]

/-- The `"images"` section of `to_dict` (config.py lines 483-491). -/
def toDictImages (im : ImageConfig) : List (PyKey × PyVal) :=
  [(.str "path_prefix".data, .str im.path_prefix),
   (.str "path_suffix".data, .str im.path_suffix),
   (.str "width_unit".data, .str im.width_unit),
   (.str "include_command".data, .str im.include_command),
   (.str "block_template".data, .str im.block_template),
   (.str "base_dir".data, im.base_dir),
   (.str "validate_paths".data, .bool im.validate_paths)]

/-- The `"lists"` section of `to_dict` (config.py lines 492-495). -/
def toDictLists (l : ListConfig) : List (PyKey × PyVal) :=
  [(.str "unordered_environment".data, .str l.unordered_environment),
   (.str "ordered_environment".data, .str l.ordered_environment)]

/-- The `"code_blocks"` section of `to_dict` (config.py lines 496-499). -/
def toDictCodeBlocks (cb : CodeBlockConfig) : List (PyKey × PyVal) :=
  [(.str "environment".data, .str cb.environment),
   (.str "options_template".data, cb.options_template)]

/-- The `"callouts"` section of `to_dict` (config.py lines 500-505). -/
def toDictCallouts (ca : CalloutConfig) : List (PyKey × PyVal) :=
  [(.str "environment_map".data,
     .dict (ca.environment_map.map fun kv => (PyKey.str kv.1, PyVal.str kv.2))),
   (.str "default_environment_template".data, .str ca.default_environment_template),
   (.str "title_template".data, ca.title_template),
   (.str "type_normalization".data, .str ca.type_normalization)]

/-- The `"tables"` section of `to_dict` (config.py lines 506-511). -/
def toDictTables (t : TableConfig) : List (PyKey × PyVal) :=
  [(.str "environment".data, .str t.environment),
   (.str "include_hlines".data, .bool t.include_hlines),
   (.str "multicolumn_align".data, .str t.multicolumn_align),
   (.str "multirow_command".data, .str t.multirow_command)]

/-- The `"parsing"`, `"math"`, `"labels"` and `"wiki_links"` sections of
`to_dict` (config.py lines 512-528). -/
def toDictParsing (p : ParsingConfig) : List (PyKey × PyVal) :=
  [(.str "strip_yaml_front_matter".data, .bool p.strip_yaml_front_matter)]

/-- The `"math"` section of `to_dict` (config.py lines 515-517). -/
def toDictMath (m : MathConfig) : List (PyKey × PyVal) :=
  [(.str "block_style".data, .str m.block_style)]

/-- The `"labels"` section of `to_dict` (config.py lines 518-523). -/
def toDictLabels (l : LabelConfig) : List (PyKey × PyVal) :=
  [(.str "auto_label_headings".data, .bool l.auto_label_headings),
   (.str "label_template".data, .str l.label_template),
   (.str "label_prefix".data, .str l.label_prefix),
   (.str "label_separator".data, .str l.label_separator)]

/-- The `"wiki_links"` section of `to_dict` (config.py lines 524-528). -/
def toDictWikiLinks (w : WikiLinkConfig) : List (PyKey × PyVal) :=
  [(.str "link_template".data, .str w.link_template),
   (.str "alias_template".data, .str w.alias_template),
   (.str "label_separator".data, .str w.label_separator)]

/-- `ConversionConfig.to_dict` (config.py lines 453-529) as a key-value
list (the dict's insertion order follows the source). -/
def toDictKVs (c : ConversionConfig) : List (PyKey × PyVal) :=
  [(.str "headings".data, .dict (toDictHeadings c.headings)),
   (.str "inline".data, .dict (toDictInline c.inline)),
   (.str "links".data, .dict (toDictLinks c.links)),
   (.str "citations".data, .dict (toDictCitations c.citations)),
   (.str "footnotes".data, .dict (toDictFootnotes c.footnotes)),
   (.str "images".data, .dict (toDictImages c.images)),
   (.str "lists".data, .dict (toDictLists c.lists)),
   (.str "code_blocks".data, .dict (toDictCodeBlocks c.code_blocks)),
   (.str "callouts".data, .dict (toDictCallouts c.callouts)),
   (.str "tables".data, .dict (toDictTables c.tables)),
   (.str "parsing".data, .dict (toDictParsing c.parsing)),
   (.str "math".data, .dict (toDictMath c.math)),
   (.str "labels".data, .dict (toDictLabels c.labels)),
   (.str "wiki_links".data, .dict (toDictWikiLinks c.wiki_links))]

/-- `ConversionConfig.to_dict` as a Python value. -/
def toDict (c : ConversionConfig) : PyVal := .dict (toDictKVs c)

/-- `_deep_merge` (config.py lines 20-28): `merged = dict(base)`, then
each override entry either deep-merges (when both sides are mappings) or
replaces wholesale. -/
def deepMergeKVs : List (PyKey × PyVal) → List (PyKey × PyVal) → List (PyKey × PyVal)
  | merged, [] => merged
  | merged, (k, .dict od) :: rest =>
    (match dictGet merged k with
     | some (.dict bd) => deepMergeKVs (dictInsert merged k (.dict (deepMergeKVs bd od))) rest
     | _ => deepMergeKVs (dictInsert merged k (.dict od)) rest)
  | merged, (k, v) :: rest => deepMergeKVs (dictInsert merged k v) rest
termination_by _ ov => sizeOf ov
decreasing_by all_goals (simp only [List.cons.sizeOf_spec, Prod.mk.sizeOf_spec,
  PyVal.dict.sizeOf_spec]; omega)

/-- `ConversionConfig.with_overrides` (config.py lines 531-535): falsy
overrides return the configuration unchanged; otherwise deep-merge the
`to_dict()` projection with the overrides and re-parse via `from_dict`. -/
def withOverrides (c : ConversionConfig) (overrides : PyVal) : Except PyErr ConversionConfig :=
  if !pyTruthy overrides then .ok c
  else
    match overrides with
    | .dict ov => fromDict (.dict (deepMergeKVs (toDictKVs c) ov))
    | _ => .error (.attributeError "object".data "items".data)

/-- Configurations reachable as in the spec's round-trip law: the
default construction, any successful `from_dict`, and any chain of
successful `with_overrides` applications. -/
inductive Reachable : ConversionConfig → Prop where
  | ofDefault : Reachable defaultConversionConfig
  | ofDict (d : PyVal) (c : ConversionConfig) : fromDict d = .ok c → Reachable c
  | ofOverrides (c c' : ConversionConfig) (o : PyVal) :
      Reachable c → withOverrides c o = .ok c' → Reachable c'

-- ===================================================================
-- Inline transformer: `loretex/conversion/inline.py`
-- ===================================================================

/-- `_normalize_link_template` (config.py lines 31-40): rewrite each
bare `{url}`/`{text}`/`{label}`/`{keys}` into the escaped triple-brace
form unless the triple-brace form is already present. -/
def normalizeLinkTemplate (template : Str) : Str :=
  let t := template
  let t := if pyContains t "\x7burl\x7d".data
      && !(pyContains t "\x7b\x7b\x7burl\x7d\x7d\x7d".data) then
      pyReplace t "\x7burl\x7d".data "\x7b\x7b\x7burl\x7d\x7d\x7d".data else t
  let t := if pyContains t "\x7btext\x7d".data
      && !(pyContains t "\x7b\x7b\x7btext\x7d\x7d\x7d".data) then
      pyReplace t "\x7btext\x7d".data "\x7b\x7b\x7btext\x7d\x7d\x7d".data else t
  let t := if pyContains t "\x7blabel\x7d".data
      && !(pyContains t "\x7b\x7b\x7blabel\x7d\x7d\x7d".data) then
      pyReplace t "\x7blabel\x7d".data "\x7b\x7b\x7blabel\x7d\x7d\x7d".data else t
  let t := if pyContains t "\x7bkeys\x7d".data
      && !(pyContains t "\x7b\x7b\x7bkeys\x7d\x7d\x7d".data) then
      pyReplace t "\x7bkeys\x7d".data "\x7b\x7b\x7bkeys\x7d\x7d\x7d".data else t
  t

/-- Fuel-driven core of Python `str.format(**bindings)` restricted to
brace escapes (`{{`, `}}`) and named replacement fields (`{name}`), the
only features the templates use.  An unknown field raises `KeyError`, a
lone brace `ValueError`.  Fuel `length + 1` always suffices (each step
consumes at least one character). -/
def pyFormatF (bindings : List (Str × Str)) : Nat → Str → Except PyErr Str
  | 0, _ => .error (.valueError "format: out of fuel".data)
  | _ + 1, [] => .ok []
  | f + 1, '\x7b' :: '\x7b' :: rest =>
    (match pyFormatF bindings f rest with
     | .ok t => .ok ('\x7b' :: t)
     | .error e => .error e)
  | f + 1, '\x7d' :: '\x7d' :: rest =>
    (match pyFormatF bindings f rest with
     | .ok t => .ok ('\x7d' :: t)
     | .error e => .error e)
  | f + 1, '\x7b' :: rest =>
    (match rest.dropWhile (fun ch => ch ≠ '\x7d') with
     | '\x7d' :: tail =>
       (match dictGet bindings (rest.takeWhile (fun ch => ch ≠ '\x7d')) with
        | some v =>
          (match pyFormatF bindings f tail with
           | .ok t => .ok (v ++ t)
           | .error e => .error e)
        | none => .error (.keyError (rest.takeWhile (fun ch => ch ≠ '\x7d'))))
     | _ => .error (.valueError "Single brace in format string".data))
  | _ + 1, '\x7d' :: _ => .error (.valueError "Single brace in format string".data)
  | f + 1, ch :: rest =>
    (match pyFormatF bindings f rest with
     | .ok t => .ok (ch :: t)
     | .error e => .error e)

/-- Python `template.format(**bindings)` (named fields only). -/
def pyFormat (bindings : List (Str × Str)) (template : Str) : Except PyErr Str :=
  pyFormatF bindings (template.length + 1) template

/-- `CitationConfig.format_citation` (config.py lines 108-111): join the
keys with the configured separator and substitute into the normalized
citation template. -/
def CitationConfig.format_citation (cfg : CitationConfig) (keys : List Str) :
    Except PyErr Str :=
  pyFormat [("keys".data, pyJoin cfg.separator keys)]
    (normalizeLinkTemplate cfg.cite_template)

/-- `CitationConfig.format_citation_with_locator` (config.py lines
113-116). -/
def CitationConfig.format_citation_with_locator (cfg : CitationConfig)
    (keys : List Str) (locator : Str) : Except PyErr Str :=
  pyFormat [("keys".data, pyJoin cfg.separator keys), ("locator".data, locator)]
    (normalizeLinkTemplate cfg.cite_with_locator_template)

/-- One iteration of the entry-extraction loop of
`InlineTransformer._format_citation` (inline.py lines 223-233): strip
the part, skip it when empty, split off a locator at the first `,`,
strip the key and remove its leading `@`s. -/
def citationEntryStep (acc : List (Str × Option Str)) (part0 : Str) :
    List (Str × Option Str) :=
  if (pyStrip part0).isEmpty then acc
  else
    match pySplitOnce (pyStrip part0) ",".data with
    | some (key_part, locator) =>
      acc ++ [(pyLstripChars (pyStrip key_part) ['@'], some (pyStrip locator))]
    | Option.none => acc ++ [(pyLstripChars (pyStrip part0) ['@'], Option.none)]

/-- The entry-extraction loop of `InlineTransformer._format_citation`
(inline.py lines 222-233): split the marker body on `;` and process each
part. -/
def parseCitationEntries (raw : Str) : List (Str × Option Str) :=
  (pySplit1 raw ';').foldl citationEntryStep []

/-- The per-entry rendering of the any-locator branch of
`_format_citation` (inline.py lines 242-251): a truthy locator selects
the with-locator form. -/
def renderCitationEntry (cfg : CitationConfig) (e : Str × Option Str) :
    Except PyErr Str :=
  match e.2 with
  | some loc =>
    if loc.isEmpty then cfg.format_citation [e.1]
    else cfg.format_citation_with_locator [e.1] loc
  | Option.none => cfg.format_citation [e.1]

/-- `InlineTransformer._format_citation` (inline.py lines 221-252): with
no entries the marker body is returned unchanged; when every entry lacks
a locator all keys are joined into one citation call; otherwise each
entry is rendered individually (with its locator when the locator is
truthy) and the renderings are joined with the multi-cite separator. -/
def formatCitationRaw (cfg : CitationConfig) (raw : Str) : Except PyErr Str :=
  if (parseCitationEntries raw).isEmpty then .ok raw
  else if (parseCitationEntries raw).all (fun e => e.2.isNone) then
    cfg.format_citation ((parseCitationEntries raw).map Prod.fst)
  else do
    let rendered ← (parseCitationEntries raw).mapM (renderCitationEntry cfg)
    pure (pyJoin cfg.multi_cite_separator rendered)

/-- A well-formed citation key as it occurs in marker entries: nonempty,
free of the separators `;` and `,`, with no surrounding whitespace to
strip and no leading `@` beyond the marker's own. -/
abbrev plainKey (k : Str) : Prop :=
  k ≠ [] ∧ (∀ c ∈ k, c ≠ ';' ∧ c ≠ ',') ∧
  pyLstrip k = k ∧ pyRstrip k = k ∧ pyLstripChars k ['@'] = k

/-- A well-formed citation locator: nonempty, free of `;`, with no
surrounding whitespace to strip (it may contain commas). -/
abbrev plainLocator (l : Str) : Prop :=
  l ≠ [] ∧ (∀ c ∈ l, c ≠ ';') ∧ pyLstrip l = l ∧ pyRstrip l = l

/-- One entry of a citation marker body: `key` or `key, locator`. -/
def citationEntryStr : Str × Option Str → Str
  | (k, Option.none) => k
  | (k, some loc) => k ++ ',' :: ' ' :: loc

/-- The body of a citation marker `[@…]` built from an entry list, as
the regex group captures it: the first key appears bare (its `@` was
consumed by the pattern), later entries carry `; @`. -/
def serializeCitation : List (Str × Option Str) → Str
  | [] => []
  | e :: rest =>
    citationEntryStr e ++ rest.flatMap (fun e2 => ';' :: ' ' :: '@' :: citationEntryStr e2)

/-- `InlineTransformer._ensure_command` (inline.py lines 271-276). -/
def ensureCommand (command : Str) : Str :=
  let command := pyStrip command
  if pyStartswith command "\\".data then command else '\\' :: command

/-- `InlineTransformer._escape_texttt` (inline.py lines 116-118): map
each character through the escape table (single-character string keys),
keeping unmapped characters. -/
def escapeTexttt (cfg : ConversionConfig) (code : Str) : Str :=
  code.flatMap (fun ch => (dictGet cfg.inline.texttt_escape_map [ch]).getD [ch])

/-- `InlineTransformer._format_inline_code` (inline.py lines 110-114). -/
def formatInlineCode (cfg : ConversionConfig) (code : Str) : Str :=
  ensureCommand cfg.inline.code_command ++ '\x7b' :: escapeTexttt cfg code ++ ['\x7d']

/-- Closing scan for the regex `\\\((.+?)\\\)` after an opening `\(`:
succeeds on the first `\)` preceded by at least one matched character,
fails at a newline or the end. -/
def findMathClose : Str → Nat → Bool
  | '\\' :: ')' :: _, _ + 1 => true
  | '\n' :: _, _ => false
  | [], _ => false
  | _ :: rest, n => findMathClose rest (n + 1)

/-- Matcher for `InlineTransformer._inline_math_paren_pattern`
(inline.py line 16): some `\( … \)` span with non-empty contents on one
line. -/
def hasParenMath : Str → Bool
  | [] => false
  | '\\' :: '(' :: rest => findMathClose rest 0 || hasParenMath rest
  | _ :: rest => hasParenMath rest

/-- Closing scan for the single-dollar pattern after an opening `$`:
the contents may not contain `$` or a newline and must be non-empty; the
closing `$` must not be followed by another `$`. -/
def dollarCloseAfter : Str → Bool
  | '$' :: rest => rest.head? ≠ some '$'
  | '\n' :: _ => false
  | [] => false
  | _ :: rest => dollarCloseAfter rest

/-- One opening position: after an opening `$` (not preceded by `\`,
not followed by `$`), the contents need at least one non-`$`/newline
character before the closing scan. -/
def dollarClose : Str → Bool
  | [] => false
  | '$' :: _ => false
  | '\n' :: _ => false
  | _ :: rest => dollarCloseAfter rest

/-- Matcher for `InlineTransformer._inline_math_dollar_pattern`
(inline.py line 15): some `(?<!\\)\$(?!\$)([^$\n]+?)\$(?!\$)` match.
The scan tracks the previous character for the look-behind. -/
def hasDollarMathGo : Option Char → Str → Bool
  | prev, '$' :: rest =>
    (if prev ≠ some '\\' && rest.head? ≠ some '$' then dollarClose rest else false)
      || hasDollarMathGo (some '$') rest
  | _, c :: rest => hasDollarMathGo (some c) rest
  | _, [] => false

/-- Whether either inline-math pattern matches somewhere in the text. -/
def hasInlineMath (s : Str) : Bool := hasParenMath s || hasDollarMathGo Option.none s

/-- `InlineTransformer._convert_non_code` (inline.py lines 61-108).
`_extract_inline_math` (line 63) invokes `_format_inline_math` on the
first inline-math span, which reads `self._config.inline.inline_math_template`
(line 157) — an attribute `InlineConfig` (config.py lines 59-70) does not
declare — raising `AttributeError`.  With no math span, control reaches
`_apply_custom_markers` (line 66), which reads
`self._config.inline.custom_markers` (line 165) — likewise undeclared —
raising `AttributeError`.  Hence the function raises on every input. -/
def convertNonCode (_cfg : ConversionConfig) (text : Str) : Except PyErr Str :=
  if hasInlineMath text then
    .error (.attributeError "InlineConfig".data "inline_math_template".data)
  else
    .error (.attributeError "InlineConfig".data "custom_markers".data)

/-- First match of `InlineTransformer._inline_code_pattern`
(`` `([^`\n]+)` ``, inline.py line 14): returns
`(before, code, after)` for the leftmost code span. -/
def findCodeSpan : Str → Option (Str × Str × Str)
  | [] => Option.none
  | '`' :: rest =>
    let run := rest.takeWhile (fun ch => ch ≠ '`' && ch ≠ '\n')
    if !run.isEmpty && (rest.drop run.length).head? = some '`' then
      some ([], run, rest.drop (run.length + 1))
    else
      (match findCodeSpan rest with
       | some (b, code, a) => some ('`' :: b, code, a)
       | Option.none => Option.none)
  | c :: rest =>
    (match findCodeSpan rest with
     | some (b, code, a) => some (c :: b, code, a)
     | Option.none => Option.none)

/-- Fuel-driven `InlineTransformer.convert` (inline.py lines 39-59):
split on inline-code spans; non-code segments go through
`_convert_non_code`, code spans through `_format_inline_code`. -/
def convertInlineF (cfg : ConversionConfig) : Nat → Str → Except PyErr Str
  | 0, _ => .error (.valueError "convert: out of fuel".data)
  | f + 1, text =>
    match findCodeSpan text with
    | some (before, code, after) => do
      let b ← convertNonCode cfg before
      let rest ← convertInlineF cfg f after
      pure (b ++ formatInlineCode cfg code ++ rest)
    | Option.none => convertNonCode cfg text

/-- `InlineTransformer.convert`; fuel `length + 1` dominates the number
of code spans. -/
def convertInline (cfg : ConversionConfig) (text : Str) : Except PyErr Str :=
  convertInlineF cfg (text.length + 1) text

/-- Well-formedness invariant satisfied by every reachable
configuration: the per-level command map and the `texttt` escape map are
non-empty, and the three association-list maps have pairwise distinct
keys (they are images of Python dicts). -/
def ConfigInv (c : ConversionConfig) : Prop :=
  c.headings.commands ≠ [] ∧ (c.headings.commands.map Prod.fst).Nodup ∧
  c.inline.texttt_escape_map ≠ [] ∧ (c.inline.texttt_escape_map.map Prod.fst).Nodup ∧
  (c.callouts.environment_map.map Prod.fst).Nodup

-- ===================================================================
-- Markdown parser: `loretex/conversion/parser.py`
-- ===================================================================

/-- `TAB_WIDTH` (constants.py line 7). -/
def TAB_WIDTH : Nat := 4

/-- A `[ \t]` character (the indent classes of the parser's patterns). -/
def isIndentChar (c : Char) : Bool := c = ' ' || c = '\t'

/-- A `[A-Za-z0-9_-]` character (the code-fence language class). -/
def isLangChar (c : Char) : Bool := c.isAlpha || c.isDigit || c = '_' || c = '-'

/-- Matcher for `_code_fence_pattern`
`^(?P<indent>[ \t]*)` + three backticks + `(?P<lang>[A-Za-z0-9_-]+)?\s*$`
(parser.py lines 34-36), returning the indent and optional language
groups.  The language class and `\s` are disjoint, so the greedy match
needs no backtracking. -/
def matchCodeFence (line : Str) : Option (Str × Option Str) :=
  let indent := line.takeWhile isIndentChar
  let rest := line.drop indent.length
  if pyStartswith rest "```".data then
    let lang := (rest.drop 3).takeWhile isLangChar
    if ((rest.drop 3).drop lang.length).all pyIsSpace then
      some (indent, if lang.isEmpty then Option.none else some lang)
    else Option.none
  else Option.none

/-- Matcher for `_code_fence_end_pattern` (three backticks after
optional indent, then `\s*$`, parser.py line 37). -/
def isCodeFenceEnd (line : Str) : Bool :=
  pyStartswith (line.dropWhile isIndentChar) "```".data &&
    ((line.dropWhile isIndentChar).drop 3).all pyIsSpace

/-- Matcher for `_callout_header_pattern`
`^(?P<indent>[ \t]*)> \[!(?P<type>[A-Za-z]+)\](?:\s+(?P<title>.*))?$`
(parser.py lines 38-40), combined with parser.py line 214
(`match.group("title") if match.group("title") else None`): the title is
`None` when the group is absent or empty.  After `\]`, either the line
ends, or at least one whitespace character must follow (the greedy `\s+`
swallows the maximal run and `.*` captures the remainder). -/
def matchCalloutHeader (line : Str) : Option (Str × Str × Option Str) :=
  let indent := line.takeWhile isIndentChar
  let rest := line.drop indent.length
  if pyStartswith rest "> [!".data then
    let ty := (rest.drop 4).takeWhile (fun c => c.isAlpha)
    if ty.isEmpty then Option.none
    else
      match (rest.drop 4).drop ty.length with
      | ']' :: rest4 =>
        (match rest4 with
         | [] => some (indent, ty, Option.none)
         | c :: _ =>
           if pyIsSpace c then
             (if (rest4.dropWhile pyIsSpace).isEmpty then some (indent, ty, Option.none)
              else some (indent, ty, some (rest4.dropWhile pyIsSpace)))
           else Option.none)
      | _ => Option.none
  else Option.none

/-- Matcher for `_heading_pattern` `^(?P<marks>#{1,6})[ \t]+(?P<title>.+)$`
(parser.py line 41).  The hash run is maximal (backtracking to fewer
marks always faces another `#`).  When everything after the `[ \t]` run
is empty, the engine backtracks one blank from the greedy `[ \t]+` so
that `.+` can match it — hence a run of two or more blanks with nothing
after yields that last blank as the title. -/
def matchHeading (line : Str) : Option (Nat × Str) :=
  let marks := line.takeWhile (fun c => c = '#')
  let rest := line.drop marks.length
  if marks.length = 0 || marks.length > 6 then Option.none
  else
    let ws := rest.takeWhile isIndentChar
    if ws.isEmpty then Option.none
    else if !(rest.drop ws.length).isEmpty then some (marks.length, rest.drop ws.length)
    else if ws.length ≥ 2 then some (marks.length, [ws.getLastD ' '])
    else Option.none

/-- Matcher for `_list_item_pattern`
`^(?P<indent>[ \t]*)(?P<marker>(?:[-*+])|(?:\d+\.))\s+(?P<content>.*)$`
(parser.py lines 42-44), returning
`(indent, marker, content, match.start("content"))`. -/
def matchListItem (line : Str) : Option (Str × Str × Str × Nat) :=
  let indent := line.takeWhile isIndentChar
  match line.drop indent.length with
  | [] => Option.none
  | c :: rest2 =>
    if c = '-' || c = '*' || c = '+' then
      let ws := rest2.takeWhile pyIsSpace
      if ws.isEmpty then Option.none
      else some (indent, [c], rest2.drop ws.length, indent.length + 1 + ws.length)
    else if c.isDigit then
      let digits := (c :: rest2).takeWhile (fun ch => ch.isDigit)
      match (c :: rest2).drop digits.length with
      | '.' :: rest4 =>
        let ws := rest4.takeWhile pyIsSpace
        if ws.isEmpty then Option.none
        else some (indent, digits ++ ['.'], rest4.drop ws.length,
                   indent.length + digits.length + 1 + ws.length)
      | _ => Option.none
    else Option.none

/-- Matcher for `_image_line_pattern`
`^<img src="(?P<path>[^"]+)\.svg" width="(?P<width>\d+)"[^>]*>$`
(parser.py lines 45-47), applied by both callers to the stripped line.
`[^"]+` cannot cross a quote, so the first quoted segment must end in
`.svg` with a non-empty stem; `[^>]*>` forces the first later `>` to be
the final character. -/
def matchImageLine (line : Str) : Option (Str × Nat) :=
  let s := pyStrip line
  if pyStartswith s "<img src=\"".data then
    let seg := (s.drop 10).takeWhile (fun c => c ≠ '"')
    let rest2 := (s.drop 10).drop seg.length
    if rest2.head? = some '"' && pyEndswith seg ".svg".data && seg.length > 4 then
      (if pyStartswith (rest2.drop 1) " width=\"".data then
        let digits := ((rest2.drop 1).drop 8).takeWhile (fun c => c.isDigit)
        if digits.isEmpty then Option.none
        else
          match ((rest2.drop 1).drop 8).drop digits.length with
          | '"' :: rest6 =>
            if rest6.drop (rest6.takeWhile (fun c => c ≠ '>')).length = ['>'] then
              some (seg.take (seg.length - 4),
                    digits.foldl (fun acc c => acc * 10 + (c.toNat - '0'.toNat)) 0)
            else Option.none
          | _ => Option.none
      else Option.none)
    else Option.none
  else Option.none

/-- Matcher for `_table_row_pattern` `^\|(.+)\|$` (parser.py line 48):
a first and last pipe with at least one interior character. -/
def isTableRow (s : Str) : Bool :=
  s.length ≥ 3 && s.head? = some '|' && s.getLast? = some '|'

/-- A `[\s:|-]` character (the table-separator interior class). -/
def isTableSepChar (c : Char) : Bool := pyIsSpace c || c = ':' || c = '|' || c = '-'

/-- Matcher for `_table_separator_pattern` `^\|[\s:|-]+\|$`
(parser.py line 49). -/
def isTableSeparator (s : Str) : Bool :=
  s.length ≥ 3 && s.head? = some '|' && s.getLast? = some '|' &&
    ((s.drop 1).dropLast.all isTableSepChar)

/-- Matcher for `_horizontal_rule_pattern`
`^[ \t]*([-*_])(?:[ \t]*\1){2,}[ \t]*$` (parser.py line 50): after
optional indent, a rule character, then only blanks and copies of that
character, at least three copies in total. -/
def isHorizontalRule (line : Str) : Bool :=
  match (line.dropWhile isIndentChar).head? with
  | some c =>
    (c = '-' || c = '*' || c = '_') &&
    (line.dropWhile isIndentChar).all (fun x => x = c || isIndentChar x) &&
    (line.dropWhile isIndentChar).count c ≥ 3
  | Option.none => false

/-- `_strip_leading_chevron` (parser.py lines 367-372): the regex
`^(?P<indent>[ \t]*)> ?(?P<rest>.*)$` keeps the indent and drops the
chevron and at most one following space; a line without a chevron after
its indent is returned unchanged. -/
def stripLeadingChevron (line : Str) : Str :=
  match line.drop (line.takeWhile isIndentChar).length with
  | '>' :: ' ' :: rest3 => line.takeWhile isIndentChar ++ rest3
  | '>' :: rest2 => line.takeWhile isIndentChar ++ rest2
  | _ => line

/-- `_strip_callout_prefix` (parser.py lines 374-377): like the chevron
strip but discarding the indent (only group 1 of `^[ \t]*> ?(.*)$` is
returned). -/
def stripCalloutPrefix (line : Str) : Str :=
  match line.dropWhile isIndentChar with
  | '>' :: ' ' :: rest => rest
  | '>' :: rest => rest
  | _ => line

/-- `_is_blockquote_line` (`^[ \t]*>`, parser.py lines 391-393). -/
def isBlockquoteLine (line : Str) : Bool :=
  (line.dropWhile isIndentChar).head? = some '>'

/-- `_is_callout_header` (parser.py lines 387-389). -/
def isCalloutHeader (line : Str) : Bool := (matchCalloutHeader line).isSome

/-- `_is_code_fence_start` (parser.py lines 383-385). -/
def isCodeFenceStart (line : Str) : Bool := (matchCodeFence line).isSome

/-- `_is_heading` (parser.py lines 395-397). -/
def isHeading (line : Str) : Bool := (matchHeading line).isSome

/-- `_is_list_item` (parser.py lines 399-401). -/
def isListItem (line : Str) : Bool := (matchListItem line).isSome

/-- `_is_image_line` (parser.py lines 403-405; the strip happens inside
the matcher). -/
def isImageLine (line : Str) : Bool := (matchImageLine line).isSome

/-- `_normalized_line` (parser.py lines 361-365). -/
def normalizedLine (line : Str) : Str :=
  if isCalloutHeader line then line else stripLeadingChevron line

/-- `_is_blank` (parser.py lines 379-381). -/
def isBlank (line : Str) : Bool := (pyStrip line).isEmpty

/-- `_is_math_block_start` (parser.py lines 407-416). -/
def isMathBlockStart (line : Str) : Bool :=
  pyStrip line = "$$".data || pyStrip line = "\\[".data ||
  (pyStartswith (pyStrip line) "$$".data && pyEndswith (pyStrip line) "$$".data &&
    (pyStrip line).length > 4) ||
  (pyStartswith (pyStrip line) "\\[".data && pyEndswith (pyStrip line) "\\]".data &&
    (pyStrip line).length > 4)

/-- `_is_ordered_marker` (parser.py lines 422-424). -/
def isOrderedMarker (marker : Str) : Bool := pyEndswith marker ".".data

/-- `_indent_width` (parser.py lines 426-436): leading blanks weighted
by `TAB_WIDTH` for tabs. -/
def indentWidth : Str → Nat
  | [] => 0
  | ' ' :: rest => 1 + indentWidth rest
  | '\t' :: rest => TAB_WIDTH + indentWidth rest
  | _ => 0

/-- `_dedent_line` (parser.py lines 438-442). -/
def dedentLine (line : Str) (indent : Nat) : Str :=
  if line.length ≤ indent then pyLstrip line else line.drop indent

/-- `_is_table_start` (parser.py lines 312-321) on the suffix of lines
beginning at the current index: a table row followed by a separator
row (both after normalization and stripping). -/
def isTableStartAt : List Str → Bool
  | l1 :: l2 :: _ =>
    isTableRow (pyStrip (normalizedLine l1)) && isTableSeparator (pyStrip (normalizedLine l2))
  | _ => false

/-- AST node definitions (nodes.py lines 34-147).  Constructor names
follow the Python classes; the `accept` methods are the visitor
dispatch embodied by `genNode` below. -/
inductive Node where
  | Document (children : List Node)
  | Section (level : Int) (title : Str)
  | Paragraph (content : Str)
  | List (ordered : Bool) (items : List Node)
  | ListItem (content : List Node)
  | CodeBlock (language : Option Str) (content : Str)
  | HorizontalRule
  | MathBlock (content : Str)
  | Callout (callout_type : Str) (title : Option Str) (children : List Node)
  | Image (source_path : Str) (width_px : Int)
  | Table (alignments : List Str) (header : List Str) (rows : List (List Str))

/-- The `ParsingError` hierarchy (exceptions.py lines 38-102): each
variant carries the 1-based line number and the offending content. -/
inductive ParsingError where
  | invalidCodeFence (line : Nat) (content : Str)
  | invalidCallout (line : Nat) (content : Str)
  | invalidHeading (line : Nat) (content : Str)
  | invalidList (line : Nat) (content : Str)
  | invalidImage (line : Nat) (content : Str)

/-- Failure modes of the embedded parser: a raised `ParsingError`, or
exhaustion of the step fuel (an artifact of the embedding, not of the
source). -/
inductive PFail where
  | raised (e : ParsingError)
  | outOfFuel

/-- The content-collection loop of `_parse_code_block` (parser.py lines
166-177) on the lines after the fence, returning the collected content
and the number of lines consumed (including a closing fence). -/
def codeBlockLines (indent : Str) : List Str → List Str × Nat
  | [] => ([], 0)
  | l :: ls =>
    if isCodeFenceEnd (normalizedLine l) then ([], 1)
    else
      ((if !indent.isEmpty && pyStartswith (normalizedLine l) indent then
          (normalizedLine l).drop indent.length
        else normalizedLine l) :: (codeBlockLines indent ls).1,
       (codeBlockLines indent ls).2 + 1)

/-- The content-collection loop of `_parse_math_block` (parser.py lines
186-194) for the delimiter-line form. -/
def mathBlockLines (endDelim : Str) : List Str → List Str × Nat
  | [] => ([], 0)
  | l :: ls =>
    if pyStrip (normalizedLine l) = endDelim then ([], 1)
    else (normalizedLine l :: (mathBlockLines endDelim ls).1,
          (mathBlockLines endDelim ls).2 + 1)

/-- The content-collection loop of `_parse_callout` (parser.py lines
216-225): subsequent blockquote lines that are not themselves callout
headers, with their prefixes stripped. -/
def calloutContentLines : List Str → List Str × Nat
  | [] => ([], 0)
  | l :: ls =>
    if isCalloutHeader l then ([], 0)
    else if !isBlockquoteLine l then ([], 0)
    else (stripCalloutPrefix l :: (calloutContentLines ls).1, (calloutContentLines ls).2 + 1)

/-- The continuation-collection loop of `_parse_list_item` (parser.py
lines 281-297) over the lines after the item's first line. -/
def listItemLines (base cindent : Nat) : List Str → List Str × Nat
  | [] => ([], 0)
  | l :: ls =>
    if isBlank (normalizedLine l) then
      (([] : Str) :: (listItemLines base cindent ls).1, (listItemLines base cindent ls).2 + 1)
    else if (match matchListItem (normalizedLine l) with
             | some m => decide (indentWidth m.1 ≤ base)
             | Option.none => false) then ([], 0)
    else if indentWidth (normalizedLine l) ≤ base then ([], 0)
    else (dedentLine (normalizedLine l) cindent :: (listItemLines base cindent ls).1,
          (listItemLines base cindent ls).2 + 1)

/-- The paragraph accumulation loop of `_parse_lines` (parser.py lines
129-151) over the lines after the paragraph's first line: normalized
lines are collected until a blank or any recognized construct. -/
def paragraphLines : List Str → List Str × Nat
  | [] => ([], 0)
  | l :: ls =>
    if isBlank (normalizedLine l) then ([], 0)
    else if isCalloutHeader l then ([], 0)
    else if isCodeFenceStart (normalizedLine l) then ([], 0)
    else if isMathBlockStart (normalizedLine l) then ([], 0)
    else if isHeading (normalizedLine l) then ([], 0)
    else if isListItem (normalizedLine l) then ([], 0)
    else if isImageLine (normalizedLine l) then ([], 0)
    else if isTableStartAt (l :: ls) then ([], 0)
    else if isHorizontalRule (normalizedLine l) then ([], 0)
    else (normalizedLine l :: (paragraphLines ls).1, (paragraphLines ls).2 + 1)

/-- `_parse_table_row` (parser.py lines 342-345). -/
def parseTableRow (line : Str) : List Str :=
  (pySplit1 (pyStripChars line ['|']) '|').map pyStrip

/-- `_parse_alignments` (parser.py lines 347-359). -/
def parseAlignments (separator_line : Str) : List Str :=
  (pySplit1 (pyStripChars separator_line ['|']) '|').map (fun cell0 =>
    if pyStartswith (pyStrip cell0) ":".data && pyEndswith (pyStrip cell0) ":".data then
      "c".data
    else if pyEndswith (pyStrip cell0) ":".data then "r".data
    else "l".data)

/-- The row-collection loop of `_parse_table` (parser.py lines 331-338). -/
def tableRows : List Str → List (List Str) × Nat
  | [] => ([], 0)
  | l :: ls =>
    if isTableRow (pyStrip (normalizedLine l)) then
      (parseTableRow (pyStrip (normalizedLine l)) :: (tableRows ls).1, (tableRows ls).2 + 1)
    else ([], 0)

/-- `_parse_code_block` (parser.py lines 157-179) on the suffix starting
at `start_idx`; `idx` is the absolute `start_idx` used in the error.
The `raise InvalidCodeFenceError` branch is exercised exactly when the
fence pattern fails to match the normalized start line. -/
def parseCodeBlock (idx : Nat) : List Str → Except PFail (Node × Nat)
  | [] => .error (.raised (.invalidCodeFence (idx + 1) []))
  | l :: rest =>
    match matchCodeFence (normalizedLine l) with
    | Option.none => .error (.raised (.invalidCodeFence (idx + 1) l))
    | some m =>
      .ok (.CodeBlock m.2 (joinNewline (codeBlockLines m.1 rest).1),
           (codeBlockLines m.1 rest).2 + 1)

/-- `_parse_math_block` (parser.py lines 181-205).  The empty-suffix
case is unreachable from `_parse_lines` (the caller holds the current
line); Python would raise `IndexError` there. -/
def parseMathBlock : List Str → Node × Nat
  | [] => (.MathBlock [], 1)
  | l :: rest =>
    if pyStrip (normalizedLine l) = "$$".data || pyStrip (normalizedLine l) = "\\[".data then
      ((.MathBlock (joinNewline
          (mathBlockLines
            (if pyStrip (normalizedLine l) = "$$".data then "$$".data else "\\]".data) rest).1)),
       (mathBlockLines
         (if pyStrip (normalizedLine l) = "$$".data then "$$".data else "\\]".data) rest).2 + 1)
    else if pyStartswith (pyStrip (normalizedLine l)) "$$".data &&
        pyEndswith (pyStrip (normalizedLine l)) "$$".data &&
        (pyStrip (normalizedLine l)).length > 4 then
      (.MathBlock (pyStrip (((pyStrip (normalizedLine l)).drop 2).take
        ((pyStrip (normalizedLine l)).length - 4))), 1)
    else if pyStartswith (pyStrip (normalizedLine l)) "\\[".data &&
        pyEndswith (pyStrip (normalizedLine l)) "\\]".data &&
        (pyStrip (normalizedLine l)).length > 4 then
      (.MathBlock (pyStrip (((pyStrip (normalizedLine l)).drop 2).take
        ((pyStrip (normalizedLine l)).length - 4))), 1)
    else (.MathBlock (pyStrip (normalizedLine l)), 1)

/-- `_parse_heading` (parser.py lines 230-237); the raise is exercised
exactly when the heading pattern fails on the given (normalized) line. -/
def parseHeading (line : Str) (idx : Nat) : Except PFail Node :=
  match matchHeading line with
  | Option.none => .error (.raised (.invalidHeading (idx + 1) line))
  | some m => .ok (.Section (Int.ofNat m.1) (pyStrip m.2))

/-- `_parse_image_line` (parser.py lines 302-310); the raise is
exercised exactly when the image pattern fails on the stripped line. -/
def parseImageLine (line : Str) (idx : Nat) : Except PFail Node :=
  match matchImageLine line with
  | Option.none => .error (.raised (.invalidImage (idx + 1) line))
  | some m => .ok (.Image m.1 (Int.ofNat m.2))

/-- `_parse_table` (parser.py lines 323-340) on the suffix starting at
the header line.  The short-suffix case is unreachable from
`_parse_lines` (guarded by `_is_table_start`, which demands two lines);
Python would raise `IndexError` there. -/
def parseTable : List Str → Node × Nat
  | l1 :: l2 :: rest =>
    (.Table (parseAlignments (pyStrip (normalizedLine l2)))
            (parseTableRow (pyStrip (normalizedLine l1)))
            (tableRows rest).1,
     (tableRows rest).2 + 2)
  | ls => (.Paragraph [], ls.length)

mutual

/-- The dispatch loop of `_parse_lines` (parser.py lines 69-155) over
the remaining lines; `idx` is the absolute index of the current line
(used only to build error line numbers) and the fuel decreases on every
iteration and on every descent into a nested block. -/
def parseLinesGo : Nat → Nat → List Str → Except PFail (List Node)
  | 0, _, _ => .error .outOfFuel
  | _ + 1, _, [] => .ok []
  | f + 1, idx, l :: rest =>
    if isBlank (normalizedLine l) then parseLinesGo f (idx + 1) rest
    else if isCalloutHeader l then do
      let pr ← parseCallout f idx (l :: rest)
      let nodes ← parseLinesGo f (idx + pr.2) ((l :: rest).drop pr.2)
      pure (pr.1 :: nodes)
    else if isCodeFenceStart (normalizedLine l) then do
      let pr ← parseCodeBlock idx (l :: rest)
      let nodes ← parseLinesGo f (idx + pr.2) ((l :: rest).drop pr.2)
      pure (pr.1 :: nodes)
    else if isMathBlockStart (normalizedLine l) then do
      let nodes ← parseLinesGo f (idx + (parseMathBlock (l :: rest)).2)
        ((l :: rest).drop (parseMathBlock (l :: rest)).2)
      pure ((parseMathBlock (l :: rest)).1 :: nodes)
    else if isHeading (normalizedLine l) then do
      let node ← parseHeading (normalizedLine l) idx
      let nodes ← parseLinesGo f (idx + 1) rest
      pure (node :: nodes)
    else if isListItem (normalizedLine l) then do
      let pr ← parseList f idx (l :: rest)
      let nodes ← parseLinesGo f (idx + pr.2) ((l :: rest).drop pr.2)
      pure (pr.1 :: nodes)
    else if isImageLine (normalizedLine l) then do
      let node ← parseImageLine (normalizedLine l) idx
      let nodes ← parseLinesGo f (idx + 1) rest
      pure (node :: nodes)
    else if isTableStartAt (l :: rest) then do
      let nodes ← parseLinesGo f (idx + (parseTable (l :: rest)).2)
        ((l :: rest).drop (parseTable (l :: rest)).2)
      pure ((parseTable (l :: rest)).1 :: nodes)
    else if isHorizontalRule (normalizedLine l) then do
      let nodes ← parseLinesGo f (idx + 1) rest
      pure (.HorizontalRule :: nodes)
    else do
      let nodes ← parseLinesGo f (idx + 1 + (paragraphLines rest).2)
        (rest.drop (paragraphLines rest).2)
      pure (.Paragraph (joinNewline (normalizedLine l :: (paragraphLines rest).1)) :: nodes)
termination_by structural f _ _ => f

/-- `_parse_callout` (parser.py lines 207-228) on the suffix starting
at the header line; the raise is exercised exactly when the callout
pattern fails on the raw header line. -/
def parseCallout : Nat → Nat → List Str → Except PFail (Node × Nat)
  | 0, _, _ => .error .outOfFuel
  | _ + 1, idx, [] => .error (.raised (.invalidCallout (idx + 1) []))
  | f + 1, idx, header :: rest =>
    match matchCalloutHeader header with
    | Option.none => .error (.raised (.invalidCallout (idx + 1) header))
    | some m => do
      let children ← parseLinesGo f 0 (calloutContentLines rest).1
      pure (.Callout m.2.1 m.2.2 children, (calloutContentLines rest).2 + 1)
termination_by structural f _ _ => f

/-- `_parse_list` (parser.py lines 239-268) on the suffix starting at
the first item line; the raise is exercised exactly when the list-item
pattern fails on the normalized start line. -/
def parseList : Nat → Nat → List Str → Except PFail (Node × Nat)
  | 0, _, _ => .error .outOfFuel
  | _ + 1, idx, [] => .error (.raised (.invalidList (idx + 1) []))
  | f + 1, idx, l :: rest =>
    match matchListItem (normalizedLine l) with
    | Option.none => .error (.raised (.invalidList (idx + 1) (normalizedLine l)))
    | some m => do
      let pr ← parseListItems f (indentWidth m.1) (isOrderedMarker m.2.1) (l :: rest)
      pure (.List (isOrderedMarker m.2.1) pr.1, pr.2)
termination_by structural f _ _ => f

/-- The item-collection loop of `_parse_list` (parser.py lines 250-267):
blank lines are skipped (but consumed), items stop at a non-item line or
at an item whose indent or orderedness differs from the list's. -/
def parseListItems : Nat → Nat → Bool → List Str → Except PFail (List Node × Nat)
  | 0, _, _, _ => .error .outOfFuel
  | _ + 1, _, _, [] => .ok ([], 0)
  | f + 1, base, ordered, l :: rest =>
    if isBlank (normalizedLine l) then do
      let pr ← parseListItems f base ordered rest
      pure (pr.1, pr.2 + 1)
    else
      match matchListItem (normalizedLine l) with
      | Option.none => .ok ([], 0)
      | some m =>
        if indentWidth m.1 ≠ base then .ok ([], 0)
        else if isOrderedMarker m.2.1 ≠ ordered then .ok ([], 0)
        else do
          let pr ← parseListItem f (indentWidth m.1) m.2.2.2 m.2.2.1 rest
          let more ← parseListItems f base ordered ((l :: rest).drop pr.2)
          pure (pr.1 :: more.1, pr.2 + more.2)
termination_by structural f _ _ _ => f

/-- `_parse_list_item` (parser.py lines 270-300): `base` and `cindent`
are the matched item's indent width and `match.start("content")`,
`content` its content group, and the list argument holds the lines after
the item's first line.  An item with no collected lines yields `[]`
without invoking `_parse_lines`. -/
def parseListItem : Nat → Nat → Nat → Str → List Str → Except PFail (Node × Nat)
  | 0, _, _, _, _ => .error .outOfFuel
  | f + 1, base, cindent, content, rest => do
    let children ←
      if ((if (pyStrip content).isEmpty then [] else [pyStrip content]) ++
          (listItemLines base cindent rest).1).isEmpty then
        (pure [] : Except PFail (List Node))
      else
        parseLinesGo f 0
          ((if (pyStrip content).isEmpty then [] else [pyStrip content]) ++
            (listItemLines base cindent rest).1)
    pure (.ListItem children, (listItemLines base cindent rest).2 + 1)
termination_by structural f _ _ _ _ => f

end

/-- `MarkdownParser.parse` (parser.py lines 52-67): split the source
into lines and parse them into a `Document`.  The quadratic fuel
dominates the parser's recursion (each fuel unit consumes a source line
or enters a nested block, and nesting chains are bounded by the source
length). -/
def parseMarkdown (source : Str) : Except PFail Node := do
  let children ← parseLinesGo ((source.length + 2) * (source.length + 2)) 0
    (pySplitlines source)
  pure (.Document children)

-- ===================================================================
-- LaTeX generator: `loretex/conversion/generator.py`
-- ===================================================================

/-- Python `str(n)` for an integer. -/
def intStr (n : Int) : Str := (toString n).data

/-- Python `x is None` on the `PyVal` universe. -/
def pyIsNone : PyVal → Bool
  | .none => true
  | _ => false

/-- The double-separator collapse loop of `slugify` (labels.py lines
13-14), fuel-driven: with a non-empty separator each pass strictly
shortens the string, so fuel `length + 1` is exact (with an empty
separator the Python loop would not terminate). -/
def slugifyGo (separator : Str) : Nat → Str → Str
  | 0, cur => cur
  | f + 1, cur =>
    if pyContains cur (separator ++ separator) then
      slugifyGo separator f (pyReplace cur (separator ++ separator) separator)
    else cur

/-- `slugify` (labels.py lines 8-15): lower-case the stripped text, map
non-alphanumeric characters to the separator, collapse separator runs
and strip surrounding separators. -/
def slugify (text : Str) (separator : Str) : Str :=
  pyStripChars
    (slugifyGo separator
      ((((pyStrip text).map Char.toLower).flatMap
        (fun c => if c.isAlphanum then [c] else separator)).length + 1)
      (((pyStrip text).map Char.toLower).flatMap
        (fun c => if c.isAlphanum then [c] else separator)))
    separator

/-- `LaTeXGenerator._make_label` (generator.py lines 183-188). -/
def makeLabel (cfg : ConversionConfig) (title : Str) : Str :=
  if !cfg.labels.label_prefix.isEmpty then
    cfg.labels.label_prefix ++ cfg.labels.label_separator ++
      slugify title cfg.labels.label_separator
  else slugify title cfg.labels.label_separator

/-- `CodeBlockConfig.begin` (config.py lines 180-186); the stored
options template is formatted with the language binding (`language or
""`). -/
def cbBegin (cfg : CodeBlockConfig) (language : Option Str) : Except PyErr Str :=
  if !pyTruthy cfg.options_template then
    .ok ("\\begin\x7b".data ++ cfg.environment ++ ['\x7d'])
  else do
    let options ← pyFormat [("language".data, language.getD [])] (pyStrOf cfg.options_template)
    if (pyStrip options).isEmpty then
      pure ("\\begin\x7b".data ++ cfg.environment ++ ['\x7d'])
    else
      pure ("\\begin\x7b".data ++ cfg.environment ++ "\x7d[".data ++ options ++ [']'])

/-- `CodeBlockConfig.end` (config.py lines 188-189). -/
def cbEnd (cfg : CodeBlockConfig) : Str := "\\end\x7b".data ++ cfg.environment ++ ['\x7d']

/-- `MathConfig.format_block` (config.py lines 240-243); note the
Python f-string `f"\\\\[{content}\\\\]"` produces two backslashes on
each side. -/
def MathConfig.format_block (cfg : MathConfig) (content : Str) : Str :=
  if cfg.block_style = "brackets".data then
    "\\\\[".data ++ content ++ "\\\\]".data
  else "$$".data ++ content ++ "$$".data

/-- `CalloutConfig.normalize_type` (config.py lines 201-206), with
Python `str.lower`/`str.upper` rendered by the ASCII character maps (the
repository's callout types are ASCII). -/
def CalloutConfig.normalize_type (cfg : CalloutConfig) (callout_type : Str) : Str :=
  if cfg.type_normalization = "lower".data then callout_type.map Char.toLower
  else if cfg.type_normalization = "upper".data then callout_type.map Char.toUpper
  else callout_type

/-- `CalloutConfig.resolve_environment` (config.py lines 208-214). -/
def CalloutConfig.resolve_environment (cfg : CalloutConfig) (callout_type : Str) :
    Except PyErr Str :=
  match dictGet cfg.environment_map (cfg.normalize_type callout_type) with
  | some v => .ok v
  | Option.none =>
    match dictGet cfg.environment_map callout_type with
    | some v => .ok v
    | Option.none =>
      pyFormat [("type".data, cfg.normalize_type callout_type)] cfg.default_environment_template

/-- `ImageConfig.format_block` (config.py lines 142-162).  The
`validate_paths` branch only emits a warning (it cannot change the
returned string), so it is omitted. -/
def ImageConfig.format_block (cfg : ImageConfig) (source_path : Str) (width_px : Int) :
    Except PyErr Str :=
  pyFormat
    [("include_command".data,
       if pyStartswith cfg.include_command "\\".data then cfg.include_command
       else '\\' :: cfg.include_command),
     ("width".data, intStr width_px),
     ("unit".data, cfg.width_unit),
     ("path_prefix".data, pyRstripChars cfg.path_prefix ['/']),
     ("source".data, source_path),
     ("path_suffix".data, cfg.path_suffix)]
    cfg.block_template

/-- `_parse_cell_span`'s annotation fold (generator.py lines 197-205):
entries without `=` are skipped; `col`/`row` keys update the spans via
`int(value)` (which may raise `ValueError`). -/
def cellSpanFold (col row : Int) : List Str → Except PyErr (Int × Int)
  | [] => .ok (col, row)
  | entry :: rest =>
    match pySplitOnce (pyStrip entry) "=".data with
    | Option.none => cellSpanFold col row rest
    | some kv =>
      if pyStrip kv.1 = "col".data then do
        let n ← pyIntOfStr (pyStrip kv.2)
        cellSpanFold n row rest
      else if pyStrip kv.1 = "row".data then do
        let n ← pyIntOfStr (pyStrip kv.2)
        cellSpanFold col n rest
      else cellSpanFold col row rest

/-- `_parse_cell_span` (generator.py lines 191-207).  The search
pattern `\{([^{}]+)\}\s*$` matches exactly when the cell, after its
trailing whitespace, ends in a brace group with non-empty brace-free
contents; the scan is performed on the reversed cell. -/
def parseCellSpan (cell : Str) : Except PyErr (Str × Int × Int) :=
  match (cell.reverse.dropWhile pyIsSpace) with
  | '\x7d' :: rev2 =>
    if !(rev2.takeWhile (fun c => c ≠ '\x7b' && c ≠ '\x7d')).isEmpty &&
        (rev2.drop (rev2.takeWhile (fun c => c ≠ '\x7b' && c ≠ '\x7d')).length).head?
          = some '\x7b' then do
      let spans ← cellSpanFold 1 1
        (pySplit1 (rev2.takeWhile (fun c => c ≠ '\x7b' && c ≠ '\x7d')).reverse ',')
      pure (pyRstrip
        ((rev2.drop ((rev2.takeWhile (fun c => c ≠ '\x7b' && c ≠ '\x7d')).length + 1)).reverse),
        spans.1, spans.2)
    else pure (cell, 1, 1)
  | _ => pure (cell, 1, 1)

/-- The cell-emission loop of `visit_table` (generator.py lines
141-159): each cell's span annotation is parsed, the content is
inline-converted, `row>1` wraps in the multirow command, `col>1` wraps
in `\multicolumn` and advances the column pointer by `col` (skipping
the next `col - 1` cells); the fuel `row length + 1` is exact since the
pointer advances by at least one each step. -/
def renderTableRowCells (cfg : ConversionConfig) : Nat → List Str → Except PyErr (List Str)
  | 0, _ => .error (.valueError "table row: out of fuel".data)
  | _ + 1, [] => .ok []
  | f + 1, cell :: restCells => do
    let span ← parseCellSpan cell
    let latex ← convertInline cfg span.1
    if span.2.1 > 1 then do
      let rendered ← renderTableRowCells cfg f (restCells.drop (span.2.1 - 1).toNat)
      pure (("\\multicolumn\x7b".data ++ intStr span.2.1 ++ "\x7d\x7b".data ++
        cfg.tables.multicolumn_align ++ "\x7d\x7b".data ++
        (if span.2.2 > 1 then
          (if pyStartswith cfg.tables.multirow_command "\\".data then
            cfg.tables.multirow_command
           else '\\' :: cfg.tables.multirow_command) ++ '\x7b' :: intStr span.2.2 ++
            "\x7d\x7b*\x7d\x7b".data ++ latex ++ ['\x7d']
         else latex) ++ ['\x7d']) :: rendered)
    else do
      let rendered ← renderTableRowCells cfg f restCells
      pure ((if span.2.2 > 1 then
          (if pyStartswith cfg.tables.multirow_command "\\".data then
            cfg.tables.multirow_command
           else '\\' :: cfg.tables.multirow_command) ++ '\x7b' :: intStr span.2.2 ++
            "\x7d\x7b*\x7d\x7b".data ++ latex ++ ['\x7d']
         else latex) :: rendered)

/-- The segment-grouping loop of `visit_list_item` (generator.py lines
71-84): consecutive converted paragraphs are flushed as one stripped
text segment; other children become block segments. -/
def groupSegments : List (Bool × Str) → List Str → List (Bool × Str)
  | [], texts => if texts.isEmpty then [] else [(true, pyStrip (joinNewline texts))]
  | (true, t) :: rest, texts => groupSegments rest (texts ++ [t])
  | (false, b) :: rest, texts =>
    (if texts.isEmpty then [] else [(true, pyStrip (joinNewline texts))]) ++
      (false, b) :: groupSegments rest []

/-- The line-emission tail of `visit_list_item` (generator.py lines
86-103): no segments yield a bare `\item`; a leading non-empty text
segment is placed on the `\item` line; all later segment values follow
on their own lines. -/
def renderItemLines : List (Bool × Str) → Str
  | [] => "\\item".data
  | (true, v) :: rest =>
    joinNewline ((if v.isEmpty then ["\\item".data] else ["\\item ".data ++ v]) ++
      rest.map Prod.snd)
  | (false, v) :: rest => joinNewline ("\\item".data :: v :: rest.map Prod.snd)

mutual

/-- `LaTeXGenerator`'s visitor dispatch (generator.py lines 37-181),
fuel-driven over the node structure.  All AST nodes are plain dataclass
instances and hence truthy, so the `if child` filter of
`visit_document` keeps every child.  `visit_horizontal_rule` (lines
111-113) reads `self._config.horizontal_rule`, an attribute
`ConversionConfig` (config.py lines 273-291) does not declare, raising
`AttributeError`. -/
def genNode (cfg : ConversionConfig) : Nat → Node → Except PyErr Str
  | 0, _ => .error (.valueError "generator: out of fuel".data)
  | f + 1, node =>
    match node with
    | .Document children => do
      let blocks ← children.mapM (genNode cfg f)
      pure (pyJoin "\n\n".data (blocks.filter (fun b => !(pyStrip b).isEmpty)))
    | .Section level title => do
      let title2 ← convertInline cfg title
      if cfg.labels.auto_label_headings then do
        let label_cmd ← pyFormat [("label".data, makeLabel cfg title)] cfg.labels.label_template
        pure (('\\' :: cfg.headings.resolve_command level ++ '\x7b' :: title2 ++ ['\x7d']) ++
          '\n' :: label_cmd)
      else pure ('\\' :: cfg.headings.resolve_command level ++ '\x7b' :: title2 ++ ['\x7d'])
    | .Paragraph content => convertInline cfg content
    | .List ordered items => do
      let items2 ← items.mapM (genNode cfg f)
      pure ("\\begin\x7b".data ++
        (if ordered then cfg.lists.ordered_environment else cfg.lists.unordered_environment) ++
        "\x7d\n".data ++ joinNewline items2 ++ "\n\\end\x7b".data ++
        (if ordered then cfg.lists.ordered_environment else cfg.lists.unordered_environment) ++
        ['\x7d'])
    | .ListItem content => do
      let rendered ← content.mapM (genListChild cfg f)
      pure (renderItemLines (groupSegments rendered []))
    | .CodeBlock language content => do
      let begin2 ← cbBegin cfg.code_blocks language
      pure (begin2 ++ '\n' :: content ++ '\n' :: cbEnd cfg.code_blocks)
    | .HorizontalRule =>
      .error (.attributeError "ConversionConfig".data "horizontal_rule".data)
    | .MathBlock content => .ok (MathConfig.format_block cfg.math content)
    | .Callout callout_type title children => do
      let body_blocks ← children.mapM (genNode cfg f)
      let environment ← CalloutConfig.resolve_environment cfg.callouts callout_type
      let title2 ← (match title with
        | some t =>
          if !t.isEmpty then do
            let t2 ← convertInline cfg t
            pure (some t2)
          else (pure Option.none : Except PyErr (Option Str))
        | Option.none => pure Option.none)
      let begin2 ← (match title2 with
        | some t2 =>
          if !t2.isEmpty && !pyIsNone cfg.callouts.title_template then do
            let suffix ← pyFormat [("title".data, t2)] (pyStrOf cfg.callouts.title_template)
            pure ("\\begin\x7b".data ++ environment ++ '\x7d' :: suffix)
          else (pure ("\\begin\x7b".data ++ environment ++ ['\x7d']) : Except PyErr Str)
        | Option.none => pure ("\\begin\x7b".data ++ environment ++ ['\x7d']))
      pure (begin2 ++ '\n' ::
        pyJoin "\n\n".data (body_blocks.filter (fun b => !(pyStrip b).isEmpty)) ++
        '\n' :: "\\end\x7b".data ++ environment ++ ['\x7d'])
    | .Image source_path width_px => ImageConfig.format_block cfg.images source_path width_px
    | .Table alignments header rows => do
      let header_cells ← header.mapM (convertInline cfg)
      let body_lines ← rows.mapM (fun row => do
        let cells ← renderTableRowCells cfg (row.length + 1) row
        pure (pyJoin " & ".data cells ++ " \\\\".data))
      if cfg.tables.include_hlines then
        pure ("\\begin\x7b".data ++ cfg.tables.environment ++ '\x7d' :: '\x7b' ::
          alignments.foldl (· ++ ·) ([] : Str) ++ "\x7d\n\\hline\n".data ++
          pyJoin " & ".data header_cells ++ " \\\\\n\\hline\n".data ++
          joinNewline body_lines ++ "\n\\hline\n\\end\x7b".data ++
          cfg.tables.environment ++ ['\x7d'])
      else
        pure ("\\begin\x7b".data ++ cfg.tables.environment ++ '\x7d' :: '\x7b' ::
          alignments.foldl (· ++ ·) ([] : Str) ++ "\x7d\n".data ++
          pyJoin " & ".data header_cells ++ " \\\\\n".data ++
          joinNewline body_lines ++ "\n\\end\x7b".data ++
          cfg.tables.environment ++ ['\x7d'])
termination_by structural f _ => f

/-- The per-child rendering step of `visit_list_item` (generator.py
lines 74-81): paragraph children are inline-converted (text segments),
all other children are visited (block segments). -/
def genListChild (cfg : ConversionConfig) : Nat → Node → Except PyErr (Bool × Str)
  | 0, _ => .error (.valueError "generator: out of fuel".data)
  | f + 1, child =>
    match child with
    | .Paragraph c => do
      let t ← convertInline cfg c
      pure (true, t)
    | _ => do
      let b ← genNode cfg f child
      pure (false, b)
termination_by structural f _ => f

end

mutual

/-- A size measure on node trees (used only to pick a sufficient fuel). -/
def nodeSize : Node → Nat
  | .Document cs => nodesSize cs + 1
  | .List _ items => nodesSize items + 1
  | .ListItem cs => nodesSize cs + 1
  | .Callout _ _ cs => nodesSize cs + 1
  | _ => 1

/-- `nodeSize` summed over a list. -/
def nodesSize : List Node → Nat
  | [] => 0
  | n :: ns => nodeSize n + nodesSize ns + 1

end

/-- `document.accept(generator)`: run the visitor on a node with fuel
dominating the tree depth (each descent decreases `nodeSize` by at
least two while consuming at most two fuel units). -/
def generateLatex (cfg : ConversionConfig) (doc : Node) : Except PyErr Str :=
  genNode cfg (nodeSize doc + 1) doc

-- ===================================================================
-- Conversion engine: `loretex/conversion/engine.py`,
-- `loretex/conversion/registry.py`, `loretex/conversion/transforms.py`
-- ===================================================================

/-- Error channel mapping, Python exception propagation across the
engine's phases. -/
def mapFailure {ε ε2 α : Type} (f : ε → ε2) : Except ε α → Except ε2 α
  | .ok a => .ok a
  | .error e => .error (f e)

/-- `apply_transforms` (transforms.py lines 19-24). -/
def applyTransforms (document : Node) (transforms : List (Node → Node)) : Node :=
  transforms.foldl (fun current transform => transform current) document

/-- `resolve_transforms`/`get_transform` (registry.py lines 21-36) with
the module-level `_TRANSFORMS` dict passed explicitly: an unknown name
raises `KeyError`. -/
def resolveTransforms (registry : List (Str × (Node → Node))) (names : List Str) :
    Except PyErr (List (Node → Node)) :=
  names.mapM (fun name =>
    match dictGet registry name with
    | some t => .ok t
    | Option.none => .error (.keyError name))

/-- `_strip_yaml_front_matter`'s closing-marker scan (engine.py lines
82-84) over the lines after the first. -/
def yamlEnd : List Str → Option (List Str)
  | [] => Option.none
  | l :: ls => if pyStrip l = "---".data then some ls else yamlEnd ls

/-- `_strip_yaml_front_matter` (engine.py lines 76-85). -/
def stripYamlFrontMatter (source : Str) : Str :=
  match pySplitlines source with
  | [] => source
  | first :: rest =>
    if pyStrip first ≠ "---".data then source
    else
      match yamlEnd rest with
      | some tail => pyLstripChars (joinNewline tail) ['\n']
      | Option.none => source

/-- The continuation-collection loop of `_extract_footnotes`
(engine.py lines 101-114): blank lines contribute an empty line,
indented lines their stripped content; a new footnote head or any other
line stops the collection. -/
def footnoteBody : List Str → List Str × List Str
  | [] => ([], [])
  | l :: ls =>
    if pyStartswith l "[^".data && pyContains l "]: ".data then ([], l :: ls)
    else if (pyStrip l).isEmpty then
      (([] : Str) :: (footnoteBody ls).1, (footnoteBody ls).2)
    else if pyStartswith l "    ".data || pyStartswith l "\t".data then
      (pyStrip l :: (footnoteBody ls).1, (footnoteBody ls).2)
    else ([], l :: ls)

/-- `_extract_footnotes` (engine.py lines 88-119), fuel-driven (each
step consumes at least one line, so fuel `length + 1` is exact): the
footnote dict is threaded as an accumulator so that assignments happen
in encounter order (later duplicates overwrite earlier ones); returns
the remaining source lines and the footnote mapping. -/
def extractFootnotesGo : Nat → List Str → List (Str × Str) → List Str × List (Str × Str)
  | 0, ls, fns => (ls, fns)
  | _ + 1, [], fns => ([], fns)
  | f + 1, l :: ls, fns =>
    if pyStartswith l "[^".data && pyContains l "]: ".data then
      match pySplitOnce l "]: ".data with
      | some kv =>
        extractFootnotesGo f (footnoteBody ls).2
          (dictInsert fns (kv.1.drop 2)
            (pyStrip (joinNewline (pyRstrip kv.2 :: (footnoteBody ls).1))))
      | Option.none => ([], fns)
    else
      (l :: (extractFootnotesGo f ls fns).1, (extractFootnotesGo f ls fns).2)

/-- `_extract_footnotes` on a source string; an empty line list returns
the source unchanged with no footnotes (engine.py lines 90-91). -/
def extractFootnotes (source : Str) : Str × List (Str × Str) :=
  match pySplitlines source with
  | [] => (source, [])
  | l :: ls =>
    (joinNewline (extractFootnotesGo (source.length + 1) (l :: ls) []).1,
     (extractFootnotesGo (source.length + 1) (l :: ls) []).2)

/-- Failure modes of the whole conversion pipeline, tagged by phase. -/
inductive ConvertError where
  | configError (e : PyErr)
  | parsingFail (e : PFail)
  | generationError (e : PyErr)

/-- `MarkdownToLaTeXConverter.convert_string` (engine.py lines 33-63)
together with the constructor's transform resolution (lines 26-31).
The module-level transform registry `_TRANSFORMS` — the only mutable
module state the pipeline can consult — is passed explicitly, and is
read only when `transform_names` is non-empty.  The footnote table
extracted from the source is threaded to the inline transformer in the
source, but no reachable path of `InlineTransformer.convert` reads it
before the `custom_markers` attribute error, so both generator choices
of engine.py lines 55-59 denote `genNode config`. -/
def convertString (registry : List (Str × (Node → Node))) (cfg : ConversionConfig)
    (transforms : List (Node → Node)) (transform_names : List Str)
    (source : Str) (overrides : PyVal) : Except ConvertError Str := do
  let tfs ← if transform_names.isEmpty then pure transforms
    else do
      let r ← mapFailure ConvertError.configError (resolveTransforms registry transform_names)
      pure (transforms ++ r)
  let config ← if !pyTruthy overrides then pure cfg
    else mapFailure ConvertError.configError (withOverrides cfg overrides)
  let ast ← mapFailure ConvertError.parsingFail
    (parseMarkdown (extractFootnotes
      (if config.parsing.strip_yaml_front_matter then stripYamlFrontMatter source
       else source)).1)
  mapFailure ConvertError.generationError (generateLatex config (applyTransforms ast tfs))

-- ===================================================================
-- Structural predicates used by the claims
-- ===================================================================

/-- Absence of a raised `ParsingError` in a parser result (fuel
exhaustion is an embedding artifact, not a raise). -/
def notRaised {α : Type} : Except PFail α → Bool
  | .error (.raised _) => false
  | _ => true

/-- Whether an `Except` result is a success. -/
def exceptIsOk {ε α : Type} : Except ε α → Bool
  | .ok _ => true
  | .error _ => false

/-- Lifting a predicate on values to parser results (failures are
vacuously fine). -/
def exceptPred {α : Type} (p : α → Bool) : Except PFail α → Bool
  | .ok a => p a
  | .error _ => true

mutual

/-- Whether a node tree contains a `HorizontalRule` node. -/
def containsHR : Node → Bool
  | .HorizontalRule => true
  | .Document cs => containsHRList cs
  | .List _ items => containsHRList items
  | .ListItem cs => containsHRList cs
  | .Callout _ _ cs => containsHRList cs
  | _ => false

/-- Whether any node of a list contains a `HorizontalRule`. -/
def containsHRList : List Node → Bool
  | [] => false
  | n :: ns => containsHR n || containsHRList ns

end

mutual

/-- The shape every parser-produced `Table` actually satisfies: the
alignment list, the header cell list and every row's cell list are
non-empty (pipe-splitting always yields at least one cell). -/
def nodeTablesWF : Node → Bool
  | .Document cs => nodesTablesWF cs
  | .List _ items => nodesTablesWF items
  | .ListItem cs => nodesTablesWF cs
  | .Callout _ _ cs => nodesTablesWF cs
  | .Table alignments header rows =>
    !alignments.isEmpty && !header.isEmpty && rows.all (fun r => !r.isEmpty)
  | _ => true

/-- `nodeTablesWF` over a node list. -/
def nodesTablesWF : List Node → Bool
  | [] => true
  | n :: ns => nodeTablesWF n && nodesTablesWF ns

end

end Loretex

-- ===================================================================
-- Theorems
-- ===================================================================

namespace Loretex

-- ------------------------------------------------------------------
-- Except-monad helper lemmas
-- ------------------------------------------------------------------

theorem ok_bind {ε α β : Type} (a : α) (f : α → Except ε β) :
    ((Except.ok a : Except ε α) >>= f) = f a := rfl

theorem error_bind {ε α β : Type} (e : ε) (f : α → Except ε β) :
    ((Except.error e : Except ε α) >>= f) = .error e := rfl

theorem bind_ok_inv {ε α β : Type} {x : Except ε α} {f : α → Except ε β} {c : β}
    (h : (x >>= f) = .ok c) : ∃ a, x = .ok a ∧ f a = .ok c := by
  cases x with
  | error e => exact absurd h (by simp [error_bind])
  | ok a => exact ⟨a, rfl, h⟩

-- ------------------------------------------------------------------
-- Association-list dictionary lemmas
-- ------------------------------------------------------------------

theorem dictInsert_of_not_mem {α β : Type} [DecidableEq α]
    (l : List (α × β)) (k : α) (v : β) (h : k ∉ l.map Prod.fst) :
    dictInsert l k v = l ++ [(k, v)] := by
  induction l with
  | nil => rfl
  | cons kv rest ih =>
    obtain ⟨k', v'⟩ := kv
    simp only [List.map_cons, List.mem_cons, not_or] at h
    obtain ⟨h1, h2⟩ := h
    simp only [dictInsert]
    rw [if_neg (fun e => h1 e.symm)]
    simp [ih h2]

theorem foldl_dictInsert_of_nodup {α β : Type} [DecidableEq α]
    (m : List (α × β)) (init : List (α × β))
    (hdisj : ∀ k ∈ m.map Prod.fst, k ∉ init.map Prod.fst)
    (hnd : (m.map Prod.fst).Nodup) :
    m.foldl (fun acc kv => dictInsert acc kv.1 kv.2) init = init ++ m := by
  induction m generalizing init with
  | nil => simp
  | cons kv rest ih =>
    obtain ⟨k, v⟩ := kv
    simp only [List.map_cons, List.nodup_cons] at hnd
    obtain ⟨hknotin, hndrest⟩ := hnd
    simp only [List.foldl_cons]
    rw [dictInsert_of_not_mem init k v (hdisj k (by simp))]
    rw [ih (init ++ [(k, v)])]
    · simp
    · intro x hx hmem
      rw [List.map_append] at hmem
      rcases List.mem_append.mp hmem with hc | hc
      · exact hdisj x (by simp only [List.map_cons]; exact List.mem_cons_of_mem _ hx) hc
      · simp only [List.map_cons, List.map_nil, List.mem_singleton] at hc
        subst hc
        exact hknotin hx
    · exact hndrest

theorem dictInsert_ne_nil {α β : Type} [DecidableEq α]
    (l : List (α × β)) (k : α) (v : β) : dictInsert l k v ≠ [] := by
  cases l with
  | nil => simp [dictInsert]
  | cons kv rest =>
    obtain ⟨k', v'⟩ := kv
    simp only [dictInsert]
    split <;> simp

theorem mem_keys_dictInsert {α β : Type} [DecidableEq α]
    (l : List (α × β)) (k : α) (v : β) (x : α) :
    x ∈ (dictInsert l k v).map Prod.fst ↔ x ∈ l.map Prod.fst ∨ x = k := by
  induction l with
  | nil => simp [dictInsert]
  | cons kv rest ih =>
    obtain ⟨a, b⟩ := kv
    by_cases he : a = k
    · subst he
      simp [dictInsert]
      tauto
    · simp only [dictInsert, if_neg he, List.map_cons, List.mem_cons, ih]
      tauto

theorem dictInsert_keys_nodup {α β : Type} [DecidableEq α]
    (l : List (α × β)) (k : α) (v : β) (h : (l.map Prod.fst).Nodup) :
    ((dictInsert l k v).map Prod.fst).Nodup := by
  induction l with
  | nil => simp [dictInsert]
  | cons kv rest ih =>
    obtain ⟨a, b⟩ := kv
    simp only [List.map_cons, List.nodup_cons] at h
    by_cases he : a = k
    · subst he
      simp only [dictInsert, eq_self_iff_true, if_true, List.map_cons, List.nodup_cons]
      exact h
    · simp only [dictInsert, if_neg he, List.map_cons, List.nodup_cons]
      refine ⟨fun hc => ?_, ih h.2⟩
      rcases (mem_keys_dictInsert rest k v a).mp hc with hc | hc
      · exact h.1 hc
      · exact he hc

-- ------------------------------------------------------------------
-- Coercion round-trip lemmas
-- ------------------------------------------------------------------

theorem intMapping_foldlM (m : List (Int × Str)) (acc : List (Int × Str)) :
    List.foldlM (fun acc kv => do
        let k ← pyKeyInt kv.1
        pure (dictInsert acc k (pyStrOf kv.2)))
      acc (m.map fun kv => (PyKey.int kv.1, PyVal.str kv.2))
    = Except.ok (List.foldl (fun a kv => dictInsert a kv.1 kv.2) acc m) := by
  induction m generalizing acc with
  | nil => rfl
  | cons kv rest ih =>
    obtain ⟨k, v⟩ := kv
    simp only [List.map_cons, List.foldlM_cons]
    show (List.foldlM _ (dictInsert acc k v) _ : Except PyErr _) = _
    rw [ih]
    rfl

theorem coerceIntMapping_roundtrip (m : List (Int × Str)) (hm : m ≠ [])
    (hnd : (m.map Prod.fst).Nodup) :
    coerceIntMapping (.dict (m.map fun kv => (PyKey.int kv.1, PyVal.str kv.2))) = .ok m := by
  have htr : pyTruthy (.dict (m.map fun kv => (PyKey.int kv.1, PyVal.str kv.2))) = true := by
    cases m with
    | nil => exact absurd rfl hm
    | cons a l => simp [pyTruthy]
  unfold coerceIntMapping
  rw [htr]
  simp only [Bool.not_true, Bool.false_eq_true, if_false]
  rw [intMapping_foldlM m []]
  rw [foldl_dictInsert_of_nodup m [] (by simp) hnd]
  simp

theorem coerceStrMapping_roundtrip (m : List (Str × Str))
    (hnd : (m.map Prod.fst).Nodup) :
    coerceStrMapping (.dict (m.map fun kv => (PyKey.str kv.1, PyVal.str kv.2))) = .ok m := by
  cases m with
  | nil => rfl
  | cons kv rest =>
    have htr : pyTruthy (.dict ((kv :: rest).map fun kv => (PyKey.str kv.1, PyVal.str kv.2)))
        = true := by simp [pyTruthy]
    unfold coerceStrMapping
    rw [htr]
    simp only [Bool.not_true, Bool.false_eq_true, if_false]
    have hfold : ∀ (l : List (Str × Str)) (acc : List (Str × Str)),
        (l.map fun kv => (PyKey.str kv.1, PyVal.str kv.2)).foldl
          (fun acc kv => dictInsert acc (pyKeyStr kv.1) (pyStrOf kv.2)) acc
        = l.foldl (fun a kv => dictInsert a kv.1 kv.2) acc := by
      intro l
      induction l with
      | nil => intro acc; rfl
      | cons kv2 rest2 ih =>
        intro acc
        obtain ⟨k, v⟩ := kv2
        simp only [List.map_cons, List.foldl_cons]
        exact ih _
    rw [hfold]
    rw [foldl_dictInsert_of_nodup _ [] (by simp) hnd]
    simp

theorem mapM_pyIter_tuples (l : List (List PyVal)) :
    (l.map PyVal.tuple).mapM pyIter = Except.ok l := by
  induction l with
  | nil => rfl
  | cons x rest ih =>
    simp only [List.map_cons, List.mapM_cons]
    rw [show pyIter (PyVal.tuple x) = .ok x from rfl]
    simp only [bind, Except.bind, ih]
    rfl

-- ------------------------------------------------------------------
-- The dict round-trip law, section by section
-- ------------------------------------------------------------------

theorem fromDictHeadings_roundtrip (h : HeadingConfig) (h1 : h.commands ≠ [])
    (h2 : (h.commands.map Prod.fst).Nodup) :
    fromDictHeadings (toDictHeadings h) = .ok h := by
  unfold fromDictHeadings
  rw [show getKV (toDictHeadings h) "commands" .none
    = .dict (h.commands.map fun kv => (PyKey.int kv.1, PyVal.str kv.2)) from rfl]
  rw [coerceIntMapping_roundtrip h.commands h1 h2]
  rfl

theorem fromDictInline_roundtrip (i : InlineConfig) (h3 : i.texttt_escape_map ≠ [])
    (h4 : (i.texttt_escape_map.map Prod.fst).Nodup) :
    fromDictInline (toDictInline i) = .ok i := by
  have hescne : i.texttt_escape_map.isEmpty = false := by
    cases hm : i.texttt_escape_map with
    | nil => exact absurd hm h3
    | cons a l => rfl
  unfold fromDictInline
  rw [show getKV (toDictInline i) "texttt_escape_map" .none
    = .dict (i.texttt_escape_map.map fun kv => (PyKey.str kv.1, PyVal.str kv.2)) from rfl]
  rw [coerceStrMapping_roundtrip i.texttt_escape_map h4]
  rw [show getKV (toDictInline i) "character_normalization" DEFAULT_CHARACTER_NORMALIZATION_PY
    = .list (i.character_normalization.map PyVal.tuple) from rfl]
  simp only [ok_bind, hescne, Bool.false_eq_true, if_false,
    show pyIter (.list (i.character_normalization.map PyVal.tuple))
      = .ok (i.character_normalization.map PyVal.tuple) from rfl,
    mapM_pyIter_tuples i.character_normalization]
  rfl

theorem fromDictCallouts_roundtrip (ca : CalloutConfig)
    (h5 : (ca.environment_map.map Prod.fst).Nodup) :
    fromDictCallouts (toDictCallouts ca) = .ok ca := by
  unfold fromDictCallouts
  rw [show getKV (toDictCallouts ca) "environment_map" .none
    = .dict (ca.environment_map.map fun kv => (PyKey.str kv.1, PyVal.str kv.2)) from rfl]
  rw [coerceStrMapping_roundtrip ca.environment_map h5]
  rfl

theorem fromDict_toDict (c : ConversionConfig) (hinv : ConfigInv c) :
    fromDict (toDict c) = .ok c := by
  obtain ⟨h1, h2, h3, h4, h5⟩ := hinv
  have hH := fromDictHeadings_roundtrip c.headings h1 h2
  have hI := fromDictInline_roundtrip c.inline h3 h4
  have hC := fromDictCallouts_roundtrip c.callouts h5
  show fromDictKVs (toDictKVs c) = .ok c
  unfold fromDictKVs
  simp only
    [show sectionData (toDictKVs c) "headings" = .ok (toDictHeadings c.headings) from rfl,
     show sectionData (toDictKVs c) "inline" = .ok (toDictInline c.inline) from rfl,
     show sectionData (toDictKVs c) "links" = .ok (toDictLinks c.links) from rfl,
     show sectionData (toDictKVs c) "citations" = .ok (toDictCitations c.citations) from rfl,
     show sectionData (toDictKVs c) "footnotes" = .ok (toDictFootnotes c.footnotes) from rfl,
     show sectionData (toDictKVs c) "images" = .ok (toDictImages c.images) from rfl,
     show sectionData (toDictKVs c) "callouts" = .ok (toDictCallouts c.callouts) from rfl,
     show sectionData (toDictKVs c) "tables" = .ok (toDictTables c.tables) from rfl,
     show sectionData (toDictKVs c) "parsing" = .ok (toDictParsing c.parsing) from rfl,
     show sectionData (toDictKVs c) "math" = .ok (toDictMath c.math) from rfl,
     show sectionData (toDictKVs c) "labels" = .ok (toDictLabels c.labels) from rfl,
     show sectionData (toDictKVs c) "wiki_links" = .ok (toDictWikiLinks c.wiki_links) from rfl,
     show sectionDataOr (toDictKVs c) "lists" "list" = .ok (toDictLists c.lists) from rfl,
     show sectionDataOr (toDictKVs c) "code_blocks" "code-blocks"
       = .ok (toDictCodeBlocks c.code_blocks) from rfl,
     ok_bind]
  simp only [hH, hI, hC, ok_bind]
  rfl

-- ------------------------------------------------------------------
-- Invariant preservation by `from_dict`
-- ------------------------------------------------------------------

theorem foldlM_intMapping_nodup (kvs : List (PyKey × PyVal)) :
    ∀ (acc m : List (Int × Str)),
    List.foldlM (fun acc kv => do
        let k ← pyKeyInt kv.1
        pure (dictInsert acc k (pyStrOf kv.2))) acc kvs = .ok m →
    (acc.map Prod.fst).Nodup → (m.map Prod.fst).Nodup := by
  induction kvs with
  | nil =>
    intro acc m h hnd
    cases h
    exact hnd
  | cons kv rest ih =>
    intro acc m h hnd
    rw [List.foldlM_cons] at h
    cases hk : pyKeyInt kv.1 with
    | error e => rw [hk] at h; simp [bind, Except.bind] at h
    | ok k =>
      rw [hk] at h
      simp only [bind, Except.bind, pure] at h
      exact ih _ m h (dictInsert_keys_nodup _ _ _ hnd)

theorem foldlM_intMapping_ne_nil (kvs : List (PyKey × PyVal)) :
    ∀ (acc m : List (Int × Str)),
    List.foldlM (fun acc kv => do
        let k ← pyKeyInt kv.1
        pure (dictInsert acc k (pyStrOf kv.2))) acc kvs = .ok m →
    (acc ≠ [] ∨ kvs ≠ []) → m ≠ [] := by
  induction kvs with
  | nil =>
    intro acc m h hne
    cases h
    rcases hne with hne | hne
    · exact hne
    · exact absurd rfl hne
  | cons kv rest ih =>
    intro acc m h _
    rw [List.foldlM_cons] at h
    cases hk : pyKeyInt kv.1 with
    | error e => rw [hk] at h; simp [bind, Except.bind] at h
    | ok k =>
      rw [hk] at h
      simp only [bind, Except.bind, pure] at h
      exact ih _ m h (Or.inl (dictInsert_ne_nil _ _ _))

theorem coerceIntMapping_inv (v : PyVal) (m : List (Int × Str))
    (h : coerceIntMapping v = .ok m) : m ≠ [] ∧ (m.map Prod.fst).Nodup := by
  unfold coerceIntMapping at h
  by_cases ht : pyTruthy v
  · rw [ht] at h
    simp only [Bool.not_true, Bool.false_eq_true, if_false] at h
    cases v with
    | dict kvs =>
      have hkvs : kvs ≠ [] := by
        cases kvs with
        | nil => simp [pyTruthy] at ht
        | cons a l => simp
      refine ⟨foldlM_intMapping_ne_nil kvs [] m h (Or.inr hkvs), ?_⟩
      exact foldlM_intMapping_nodup kvs [] m h (by simp)
    | none => simp [pyTruthy] at ht
    | bool b => exact absurd h (by simp)
    | int n => exact absurd h (by simp)
    | str s => exact absurd h (by simp)
    | list xs => exact absurd h (by simp)
    | tuple xs => exact absurd h (by simp)
  · rw [Bool.not_eq_true] at ht
    rw [ht] at h
    simp only [Bool.not_false, if_true, Except.ok.injEq] at h
    subst h
    exact ⟨by decide, by decide⟩

theorem foldl_strMapping_nodup (kvs : List (PyKey × PyVal)) :
    ∀ (acc : List (Str × Str)), (acc.map Prod.fst).Nodup →
    (((kvs.foldl (fun acc kv => dictInsert acc (pyKeyStr kv.1) (pyStrOf kv.2)) acc)).map
      Prod.fst).Nodup := by
  induction kvs with
  | nil => intro acc hnd; exact hnd
  | cons kv rest ih =>
    intro acc hnd
    rw [List.foldl_cons]
    exact ih _ (dictInsert_keys_nodup _ _ _ hnd)

theorem coerceStrMapping_inv (v : PyVal) (m : List (Str × Str))
    (h : coerceStrMapping v = .ok m) : (m.map Prod.fst).Nodup := by
  unfold coerceStrMapping at h
  by_cases ht : pyTruthy v
  · rw [ht] at h
    simp only [Bool.not_true, Bool.false_eq_true, if_false] at h
    cases v with
    | dict kvs =>
      simp only [Except.ok.injEq] at h
      subst h
      exact foldl_strMapping_nodup kvs [] (by simp)
    | none => simp [pyTruthy] at ht
    | bool b => exact absurd h (by simp)
    | int n => exact absurd h (by simp)
    | str s => exact absurd h (by simp)
    | list xs => exact absurd h (by simp)
    | tuple xs => exact absurd h (by simp)
  · rw [Bool.not_eq_true] at ht
    rw [ht] at h
    simp only [Bool.not_false, if_true, Except.ok.injEq] at h
    subst h
    simp

theorem fromDictHeadings_inv (d : List (PyKey × PyVal)) (h : HeadingConfig)
    (hh : fromDictHeadings d = .ok h) :
    h.commands ≠ [] ∧ (h.commands.map Prod.fst).Nodup := by
  unfold fromDictHeadings at hh
  obtain ⟨a, -, hh⟩ := bind_ok_inv hh
  obtain ⟨m, hm, hh⟩ := bind_ok_inv hh
  cases hh
  simpa using coerceIntMapping_inv _ _ hm

theorem fromDictInline_inv (d : List (PyKey × PyVal)) (i : InlineConfig)
    (hh : fromDictInline d = .ok i) :
    i.texttt_escape_map ≠ [] ∧ (i.texttt_escape_map.map Prod.fst).Nodup := by
  unfold fromDictInline at hh
  obtain ⟨m, hm, hh⟩ := bind_ok_inv hh
  obtain ⟨src, -, hh⟩ := bind_ok_inv hh
  obtain ⟨cn, -, hh⟩ := bind_ok_inv hh
  cases hh
  simp only
  cases hme : m.isEmpty with
  | true =>
    refine ⟨?_, ?_⟩
    · show DEFAULT_TEXTTT_ESCAPE_MAP ≠ []
      decide
    · show (DEFAULT_TEXTTT_ESCAPE_MAP.map Prod.fst).Nodup
      decide
  | false =>
    refine ⟨?_, ?_⟩
    · show m ≠ []
      cases m with
      | nil => simp at hme
      | cons a l => simp
    · show (m.map Prod.fst).Nodup
      exact coerceStrMapping_inv _ _ hm

theorem fromDictCallouts_inv (d : List (PyKey × PyVal)) (ca : CalloutConfig)
    (hh : fromDictCallouts d = .ok ca) :
    (ca.environment_map.map Prod.fst).Nodup := by
  unfold fromDictCallouts at hh
  obtain ⟨m, hm, hh⟩ := bind_ok_inv hh
  cases hh
  simpa using coerceStrMapping_inv _ _ hm

theorem defaultConfigInv : ConfigInv defaultConversionConfig := by
  refine ⟨by decide, by decide, by decide, by decide, by decide⟩

theorem fromDictKVs_inv (kvs : List (PyKey × PyVal)) (c : ConversionConfig)
    (h : fromDictKVs kvs = .ok c) : ConfigInv c := by
  unfold fromDictKVs at h
  obtain ⟨d1, -, h⟩ := bind_ok_inv h
  obtain ⟨d2, -, h⟩ := bind_ok_inv h
  obtain ⟨d3, -, h⟩ := bind_ok_inv h
  obtain ⟨d4, -, h⟩ := bind_ok_inv h
  obtain ⟨d5, -, h⟩ := bind_ok_inv h
  obtain ⟨d6, -, h⟩ := bind_ok_inv h
  obtain ⟨d7, -, h⟩ := bind_ok_inv h
  obtain ⟨d8, -, h⟩ := bind_ok_inv h
  obtain ⟨d9, -, h⟩ := bind_ok_inv h
  obtain ⟨d10, -, h⟩ := bind_ok_inv h
  obtain ⟨d11, -, h⟩ := bind_ok_inv h
  obtain ⟨d12, -, h⟩ := bind_ok_inv h
  obtain ⟨d13, -, h⟩ := bind_ok_inv h
  obtain ⟨d14, -, h⟩ := bind_ok_inv h
  obtain ⟨hd, hH, h⟩ := bind_ok_inv h
  obtain ⟨il, hI, h⟩ := bind_ok_inv h
  obtain ⟨co, hC, h⟩ := bind_ok_inv h
  cases h
  obtain ⟨hc1, hc2⟩ := fromDictHeadings_inv _ _ hH
  obtain ⟨hc3, hc4⟩ := fromDictInline_inv _ _ hI
  exact ⟨hc1, hc2, hc3, hc4, fromDictCallouts_inv _ _ hC⟩

theorem fromDict_inv (d : PyVal) (c : ConversionConfig)
    (h : fromDict d = .ok c) : ConfigInv c := by
  unfold fromDict at h
  by_cases ht : pyTruthy d
  · rw [ht] at h
    simp only [Bool.not_true, Bool.false_eq_true, if_false] at h
    cases d with
    | dict kvs => exact fromDictKVs_inv kvs c h
    | none => simp [pyTruthy] at ht
    | bool b => exact absurd h (by simp)
    | int n => exact absurd h (by simp)
    | str s => exact absurd h (by simp)
    | list xs => exact absurd h (by simp)
    | tuple xs => exact absurd h (by simp)
  · rw [Bool.not_eq_true] at ht
    rw [ht] at h
    simp only [Bool.not_false, if_true, Except.ok.injEq] at h
    subst h
    exact defaultConfigInv

/-- C2: for every `ConversionConfig` reachable by construction from
defaults, from a mapping via `from_dict`, or by any chain of
`with_overrides` applications, `from_dict(to_dict(cfg))` succeeds and
returns a configuration equal to `cfg` (the dict round-trip law). -/
theorem dict_roundtrip_law (c : ConversionConfig) (h : Reachable c) :
    fromDict (toDict c) = .ok c := by
  induction h with
  | ofDefault => exact fromDict_toDict _ defaultConfigInv
  | ofDict d c hd => exact fromDict_toDict _ (fromDict_inv d c hd)
  | ofOverrides c c' o hr hov ih =>
    unfold withOverrides at hov
    by_cases ht : pyTruthy o
    · rw [ht] at hov
      simp only [Bool.not_true, Bool.false_eq_true, if_false] at hov
      cases o with
      | dict ov => exact fromDict_toDict _ (fromDict_inv _ _ hov)
      | none => simp [pyTruthy] at ht
      | bool b => exact absurd hov (by simp)
      | int n => exact absurd hov (by simp)
      | str s => exact absurd hov (by simp)
      | list xs => exact absurd hov (by simp)
      | tuple xs => exact absurd hov (by simp)
    · rw [Bool.not_eq_true] at ht
      rw [ht] at hov
      simp only [Bool.not_false, if_true, Except.ok.injEq] at hov
      subst hov
      exact ih

/-- Witness for C2 at the default configuration. -/
theorem dict_roundtrip_law_witness :
    Reachable defaultConversionConfig ∧
      fromDict (toDict defaultConversionConfig) = .ok defaultConversionConfig :=
  ⟨Reachable.ofDefault, dict_roundtrip_law defaultConversionConfig Reachable.ofDefault⟩

-- ------------------------------------------------------------------
-- C6: heading-command resolution
-- ------------------------------------------------------------------

/-- C6: for all integers `markdown_level` and `anchor_level` and every
heading configuration, `resolve_command(markdown_level)` returns the
entry of the per-level command map at key
`max(markdown_level - anchor_level + 1, 1)` when present, and
`fallback_command` when absent. -/
theorem resolve_command_spec (cfg : HeadingConfig) (markdown_level : Int) :
    cfg.resolve_command markdown_level
      = (dictGet cfg.commands (max (markdown_level - cfg.anchor_level + 1) 1)).getD
          cfg.fallback_command := by
  unfold HeadingConfig.resolve_command
  have h : (if markdown_level - cfg.anchor_level + 1 < 1 then (1 : Int)
      else markdown_level - cfg.anchor_level + 1)
      = max (markdown_level - cfg.anchor_level + 1) 1 := by
    rcases le_or_lt (markdown_level - cfg.anchor_level + 1) 1 with hle | hlt
    · rcases lt_or_eq_of_le hle with hlt' | heq
      · rw [if_pos hlt', max_eq_right hle]
      · rw [heq]; simp
    · rw [if_neg (by omega), max_eq_left (le_of_lt hlt)]
  show (dictGet cfg.commands (if markdown_level - cfg.anchor_level + 1 < 1 then 1
      else markdown_level - cfg.anchor_level + 1)).getD cfg.fallback_command = _
  rw [h]

-- ------------------------------------------------------------------
-- C10: character-normalization idempotence
-- ------------------------------------------------------------------

theorem pyReplaceF_single (c : Char) (new : Str) :
    ∀ (fuel : Nat) (s : Str), s.length ≤ fuel →
    pyReplaceF [c] new fuel s = s.flatMap (fun x => if x = c then new else [x]) := by
  intro fuel
  induction fuel with
  | zero =>
    intro s hs
    cases s with
    | nil => rfl
    | cons x cs => simp at hs
  | succ f ih =>
    intro s hs
    cases s with
    | nil => rfl
    | cons x cs =>
      have hlen : cs.length ≤ f := by simpa using hs
      have hpre : ([c].isPrefixOf (x :: cs)) = (c == x) := by
        simp [List.isPrefixOf]
      simp only [pyReplaceF, hpre, List.flatMap_cons]
      by_cases hx : c = x
      · subst hx
        simp only [beq_self_eq_true, if_true,
          show List.drop [c].length (c :: cs) = cs from rfl, if_pos rfl]
        rw [ih cs hlen]
      · have hbeq : (c == x) = false := by simp [hx]
        rw [hbeq]
        simp only [Bool.false_eq_true, if_false]
        rw [if_neg (fun e : x = c => hx e.symm)]
        rw [ih cs hlen]
        rfl

theorem pyReplace_single (c : Char) (new s : Str) :
    pyReplace s [c] new = s.flatMap (fun x => if x = c then new else [x]) := by
  unfold pyReplace
  exact pyReplaceF_single c new s.length s (le_refl _)

theorem notMem_pyReplace_single {d c : Char} {new s : Str}
    (hnew : d ∉ new) (hs : d ∉ s ∨ d = c) :
    d ∉ pyReplace s [c] new := by
  rw [pyReplace_single]
  intro hmem
  rcases List.mem_flatMap.mp hmem with ⟨x, hx, hfx⟩
  by_cases hxc : x = c
  · rw [if_pos hxc] at hfx
    exact hnew hfx
  · rw [if_neg hxc] at hfx
    simp only [List.mem_singleton] at hfx
    subst hfx
    rcases hs with hs | hs
    · exact hs hx
    · exact hxc hs

theorem pyReplace_single_id {c : Char} {new s : Str} (h : c ∉ s) :
    pyReplace s [c] new = s := by
  rw [pyReplace_single]
  induction s with
  | nil => rfl
  | cons x cs ih =>
    simp only [List.mem_cons, not_or] at h
    rw [List.flatMap_cons, if_neg (fun e : x = c => h.1 e.symm), ih h.2]
    rfl

/-- C10: the character-normalization step is idempotent under the
default character-normalization table. -/
theorem normalize_characters_idempotent (s : Str) :
    normalizeCharacters DEFAULT_CHARACTER_NORMALIZATION
        (normalizeCharacters DEFAULT_CHARACTER_NORMALIZATION s)
      = normalizeCharacters DEFAULT_CHARACTER_NORMALIZATION s := by
  have hexp : ∀ t : Str, normalizeCharacters DEFAULT_CHARACTER_NORMALIZATION t
      = pyReplace (pyReplace (pyReplace (pyReplace (pyReplace t
          ['’'] "'".data) ['≤'] "\\leq".data) ['≥'] "\\geq".data)
          ['œ'] "oe".data) ['–'] "-".data := by
    intro t
    rfl
  rw [hexp, hexp]
  set z1 := pyReplace s ['’'] "'".data with hz1
  set z2 := pyReplace z1 ['≤'] "\\leq".data with hz2
  set z3 := pyReplace z2 ['≥'] "\\geq".data with hz3
  set z4 := pyReplace z3 ['œ'] "oe".data with hz4
  set z5 := pyReplace z4 ['–'] "-".data with hz5
  have h1 : '’' ∉ z5 := by
    rw [hz5]
    refine notMem_pyReplace_single (by decide) (Or.inl ?_)
    rw [hz4]
    refine notMem_pyReplace_single (by decide) (Or.inl ?_)
    rw [hz3]
    refine notMem_pyReplace_single (by decide) (Or.inl ?_)
    rw [hz2]
    refine notMem_pyReplace_single (by decide) (Or.inl ?_)
    rw [hz1]
    exact notMem_pyReplace_single (by decide) (Or.inr rfl)
  have h2 : '≤' ∉ z5 := by
    rw [hz5]
    refine notMem_pyReplace_single (by decide) (Or.inl ?_)
    rw [hz4]
    refine notMem_pyReplace_single (by decide) (Or.inl ?_)
    rw [hz3]
    refine notMem_pyReplace_single (by decide) (Or.inl ?_)
    rw [hz2]
    exact notMem_pyReplace_single (by decide) (Or.inr rfl)
  have h3 : '≥' ∉ z5 := by
    rw [hz5]
    refine notMem_pyReplace_single (by decide) (Or.inl ?_)
    rw [hz4]
    refine notMem_pyReplace_single (by decide) (Or.inl ?_)
    rw [hz3]
    exact notMem_pyReplace_single (by decide) (Or.inr rfl)
  have h4 : 'œ' ∉ z5 := by
    rw [hz5]
    refine notMem_pyReplace_single (by decide) (Or.inl ?_)
    rw [hz4]
    exact notMem_pyReplace_single (by decide) (Or.inr rfl)
  have h5 : '–' ∉ z5 := by
    rw [hz5]
    exact notMem_pyReplace_single (by decide) (Or.inr rfl)
  rw [pyReplace_single_id h1]
  rw [pyReplace_single_id h2]
  rw [pyReplace_single_id h3]
  rw [pyReplace_single_id h4]
  rw [pyReplace_single_id h5]

-- ------------------------------------------------------------------
-- C5: string lemmas for stripping and splitting
-- ------------------------------------------------------------------

theorem pyLstrip_cons_ws {c : Char} (s : Str) (hc : pyIsSpace c = true) :
    pyLstrip (c :: s) = pyLstrip s := by
  simp [pyLstrip, List.dropWhile_cons, hc]

theorem pyLstrip_cons_not_ws {c : Char} (s : Str) (hc : pyIsSpace c = false) :
    pyLstrip (c :: s) = c :: s := by
  simp [pyLstrip, List.dropWhile_cons, hc]

theorem dropWhile_length_le {α : Type} (p : α → Bool) (l : List α) :
    (l.dropWhile p).length ≤ l.length := by
  induction l with
  | nil => simp
  | cons a t ih =>
    rw [List.dropWhile_cons]
    split
    · exact Nat.le_trans ih (by simp)
    · simp

theorem pyLstrip_head_not_ws {c : Char} {s : Str} (h : pyLstrip (c :: s) = c :: s) :
    pyIsSpace c = false := by
  by_contra hc
  rw [Bool.not_eq_false] at hc
  rw [pyLstrip_cons_ws s hc] at h
  have hlen := congrArg List.length h
  have hle : (pyLstrip s).length ≤ s.length := dropWhile_length_le _ _
  simp only [List.length_cons] at hlen
  omega

theorem pyLstrip_append (a b : Str) (ha : a ≠ []) (h : pyLstrip a = a) :
    pyLstrip (a ++ b) = a ++ b := by
  cases a with
  | nil => exact absurd rfl ha
  | cons c t =>
    have hc := pyLstrip_head_not_ws h
    simp [pyLstrip, List.dropWhile_cons, hc]

theorem pyRstrip_def (s : Str) : pyRstrip s = (pyLstrip s.reverse).reverse := rfl

theorem pyRstrip_append (a : Str) {b : Str} (hb : b ≠ []) (h : pyRstrip b = b) :
    pyRstrip (a ++ b) = a ++ b := by
  have hrev : pyLstrip b.reverse = b.reverse := by
    have h2 := congrArg List.reverse ((pyRstrip_def b) ▸ h)
    simpa using h2
  rw [pyRstrip_def, List.reverse_append,
    pyLstrip_append b.reverse a.reverse (by simpa using hb) hrev]
  simp

theorem pyStrip_eq_self {s : Str} (hL : pyLstrip s = s) (hR : pyRstrip s = s) :
    pyStrip s = s := by
  unfold pyStrip
  rw [hL, hR]

theorem pyStrip_cons_ws {c : Char} (s : Str) (hc : pyIsSpace c = true) :
    pyStrip (c :: s) = pyStrip s := by
  unfold pyStrip
  rw [pyLstrip_cons_ws s hc]

theorem pySplitChar_no_sep (sep : Char) (s : Str) (h : ∀ c ∈ s, c ≠ sep) :
    ∀ acc, pySplitChar sep acc s = [acc.reverse ++ s] := by
  induction s with
  | nil => intro acc; simp [pySplitChar]
  | cons c cs ih =>
    intro acc
    have hc : c ≠ sep := h c (by simp)
    simp only [pySplitChar, if_neg hc]
    rw [ih (fun x hx => h x (by simp [hx])) (c :: acc)]
    simp

theorem pySplitChar_append (sep : Char) (a b : Str) (h : ∀ c ∈ a, c ≠ sep) :
    ∀ acc, pySplitChar sep acc (a ++ sep :: b) = (acc.reverse ++ a) :: pySplitChar sep [] b := by
  induction a with
  | nil =>
    intro acc
    simp [pySplitChar]
  | cons c cs ih =>
    intro acc
    have hc : c ≠ sep := h c (by simp)
    simp only [List.cons_append, pySplitChar, if_neg hc, List.append_eq]
    rw [ih (fun x hx => h x (by simp [hx])) (c :: acc)]
    simp

theorem pySplitOnce_none (sep : Char) (s : Str) (h : ∀ c ∈ s, c ≠ sep) :
    pySplitOnce s [sep] = Option.none := by
  induction s with
  | nil => rfl
  | cons c cs ih =>
    have hc : c ≠ sep := h c (by simp)
    have hbe : (sep == c) = false := beq_eq_false_iff_ne.mpr (fun e => hc e.symm)
    have hpre : ([sep].isPrefixOf (c :: cs)) = false := by
      simp [List.isPrefixOf, hbe]
    simp only [pySplitOnce, hpre, Bool.false_eq_true, if_false]
    rw [ih (fun x hx => h x (by simp [hx]))]

theorem pySplitOnce_append (sep : Char) (a b : Str) (h : ∀ c ∈ a, c ≠ sep) :
    pySplitOnce (a ++ sep :: b) [sep] = some (a, b) := by
  induction a with
  | nil =>
    simp only [List.nil_append, pySplitOnce]
    rw [if_pos (by simp [List.isPrefixOf])]
    simp
  | cons c cs ih =>
    have hc : c ≠ sep := h c (by simp)
    have hbe : (sep == c) = false := beq_eq_false_iff_ne.mpr (fun e => hc e.symm)
    have hpre : ([sep].isPrefixOf (c :: (cs ++ sep :: b))) = false := by
      simp [List.isPrefixOf, hbe]
    simp only [List.cons_append, pySplitOnce, hpre, Bool.false_eq_true, if_false, List.append_eq]
    rw [ih (fun x hx => h x (by simp [hx]))]

-- ------------------------------------------------------------------
-- C5: entry-step lemmas
-- ------------------------------------------------------------------

theorem pyLstripChars_at_cons (k : Str) :
    pyLstripChars ('@' :: k) ['@'] = pyLstripChars k ['@'] := by
  simp [pyLstripChars, List.dropWhile_cons]

theorem citationEntryStep_key (acc : List (Str × Option Str)) (k : Str)
    (hk : plainKey k) :
    citationEntryStep acc k = acc ++ [(k, Option.none)] := by
  obtain ⟨hne, hsep, hL, hR, hAt⟩ := hk
  unfold citationEntryStep
  rw [pyStrip_eq_self hL hR]
  have hie : k.isEmpty = false := by
    cases k with
    | nil => exact absurd rfl hne
    | cons a l => rfl
  rw [hie]
  simp only [Bool.false_eq_true, if_false]
  rw [pySplitOnce_none ',' k (fun c hc => (hsep c hc).2)]
  show acc ++ [(pyLstripChars k ['@'], Option.none)] = acc ++ [(k, Option.none)]
  rw [hAt]

theorem citationEntryStep_key_loc (acc : List (Str × Option Str)) (k loc : Str)
    (hk : plainKey k) (hl : plainLocator loc) :
    citationEntryStep acc (k ++ ',' :: ' ' :: loc) = acc ++ [(k, some loc)] := by
  obtain ⟨hne, hsep, hL, hR, hAt⟩ := hk
  obtain ⟨lne, lsep, lL, lR⟩ := hl
  have hassoc : k ++ ',' :: ' ' :: loc = (k ++ [',', ' ']) ++ loc := by simp
  have hstrip : pyStrip (k ++ ',' :: ' ' :: loc) = k ++ ',' :: ' ' :: loc := by
    unfold pyStrip
    rw [pyLstrip_append k (',' :: ' ' :: loc) hne hL]
    rw [hassoc, pyRstrip_append (k ++ [',', ' ']) lne lR]
  unfold citationEntryStep
  rw [hstrip]
  have hie : (k ++ ',' :: ' ' :: loc).isEmpty = false := by
    cases k with
    | nil => rfl
    | cons a l => rfl
  rw [hie]
  simp only [Bool.false_eq_true, if_false]
  rw [pySplitOnce_append ',' k (' ' :: loc) (fun c hc => (hsep c hc).2)]
  show acc ++ [(pyLstripChars (pyStrip k) ['@'], some (pyStrip (' ' :: loc)))]
    = acc ++ [(k, some loc)]
  rw [pyStrip_eq_self hL hR, hAt, pyStrip_cons_ws loc (by decide), pyStrip_eq_self lL lR]

theorem pyStrip_at_key (k : Str) (hne : k ≠ []) (hL : pyLstrip k = k)
    (hR : pyRstrip k = k) : pyStrip ('@' :: k) = '@' :: k := by
  unfold pyStrip
  rw [pyLstrip_cons_not_ws k (by decide)]
  rw [show ('@' :: k : Str) = ['@'] ++ k from rfl, pyRstrip_append ['@'] hne hR]

theorem citationEntryStep_later_key (acc : List (Str × Option Str)) (k : Str)
    (hk : plainKey k) :
    citationEntryStep acc (' ' :: '@' :: k) = acc ++ [(k, Option.none)] := by
  obtain ⟨hne, hsep, hL, hR, hAt⟩ := hk
  unfold citationEntryStep
  rw [pyStrip_cons_ws ('@' :: k) (by decide), pyStrip_at_key k hne hL hR]
  rw [show (('@' :: k : Str)).isEmpty = false from rfl]
  simp only [Bool.false_eq_true, if_false]
  rw [pySplitOnce_none ',' ('@' :: k) ?hcs]
  case hcs =>
    intro c hc
    rcases List.mem_cons.mp hc with hc | hc
    · subst hc; decide
    · exact (hsep c hc).2
  show acc ++ [(pyLstripChars ('@' :: k) ['@'], Option.none)] = acc ++ [(k, Option.none)]
  rw [pyLstripChars_at_cons, hAt]

theorem citationEntryStep_later_key_loc (acc : List (Str × Option Str)) (k loc : Str)
    (hk : plainKey k) (hl : plainLocator loc) :
    citationEntryStep acc (' ' :: '@' :: (k ++ ',' :: ' ' :: loc))
      = acc ++ [(k, some loc)] := by
  obtain ⟨hne, hsep, hL, hR, hAt⟩ := hk
  obtain ⟨lne, lsep, lL, lR⟩ := hl
  have hstrip : pyStrip ('@' :: (k ++ ',' :: ' ' :: loc)) = '@' :: (k ++ ',' :: ' ' :: loc) := by
    unfold pyStrip
    rw [pyLstrip_cons_not_ws _ (by decide)]
    rw [show ('@' :: (k ++ ',' :: ' ' :: loc) : Str) = ('@' :: k ++ [',', ' ']) ++ loc by simp]
    rw [pyRstrip_append ('@' :: k ++ [',', ' ']) lne lR]
  unfold citationEntryStep
  rw [pyStrip_cons_ws _ (by decide), hstrip]
  rw [show (('@' :: (k ++ ',' :: ' ' :: loc) : Str)).isEmpty = false from rfl]
  simp only [Bool.false_eq_true, if_false]
  rw [show ('@' :: (k ++ ',' :: ' ' :: loc) : Str) = ('@' :: k) ++ ',' :: (' ' :: loc) by simp]
  rw [pySplitOnce_append ',' ('@' :: k) (' ' :: loc) ?hcs]
  case hcs =>
    intro c hc
    rcases List.mem_cons.mp hc with hc | hc
    · subst hc; decide
    · exact (hsep c hc).2
  show acc ++ [(pyLstripChars (pyStrip ('@' :: k)) ['@'], some (pyStrip (' ' :: loc)))]
    = acc ++ [(k, some loc)]
  rw [pyStrip_at_key k hne hL hR, pyLstripChars_at_cons, hAt,
    pyStrip_cons_ws loc (by decide), pyStrip_eq_self lL lR]

-- ------------------------------------------------------------------
-- C5: parsing a serialized citation marker
-- ------------------------------------------------------------------

/-- Validity of one entry: a plain key and, when present, a plain
locator. -/
theorem citationEntryStr_no_semicolon (e : Str × Option Str)
    (hk : plainKey e.1) (hl : ∀ l, e.2 = some l → plainLocator l) :
    ∀ c ∈ citationEntryStr e, c ≠ ';' := by
  obtain ⟨k, opt⟩ := e
  cases opt with
  | none =>
    intro c hc
    exact (hk.2.1 c hc).1
  | some loc =>
    intro c hc
    simp only [citationEntryStr, List.mem_append, List.mem_cons] at hc
    rcases hc with hc | hc | hc | hc
    · exact (hk.2.1 c hc).1
    · subst hc; decide
    · subst hc; decide
    · exact (hl loc rfl).2.1 c hc

theorem split_serialized (rest : List (Str × Option Str))
    (hr : ∀ e ∈ rest, ∀ c ∈ citationEntryStr e, c ≠ ';') :
    ∀ (first : Str), (∀ c ∈ first, c ≠ ';') →
    pySplit1 (first ++ rest.flatMap (fun e2 => ';' :: ' ' :: '@' :: citationEntryStr e2)) ';'
      = first :: rest.map (fun e2 => ' ' :: '@' :: citationEntryStr e2) := by
  induction rest with
  | nil =>
    intro first hf
    simp only [List.flatMap_nil, List.append_nil, List.map_nil]
    unfold pySplit1
    rw [pySplitChar_no_sep ';' first hf []]
    rfl
  | cons e2 rest' ih =>
    intro first hf
    have hflat : first ++ ((e2 :: rest').flatMap (fun e2 => ';' :: ' ' :: '@' :: citationEntryStr e2))
        = first ++ ';' :: ((' ' :: '@' :: citationEntryStr e2) ++
            rest'.flatMap (fun e2 => ';' :: ' ' :: '@' :: citationEntryStr e2)) := by
      simp [List.flatMap_cons]
    rw [hflat]
    unfold pySplit1
    rw [pySplitChar_append ';' first _ hf []]
    have hfirst2 : ∀ c ∈ (' ' :: '@' :: citationEntryStr e2), c ≠ ';' := by
      intro c hc
      rcases List.mem_cons.mp hc with hc | hc
      · subst hc; decide
      · rcases List.mem_cons.mp hc with hc | hc
        · subst hc; decide
        · exact hr e2 (by simp) c hc
    have := ih (fun e he => hr e (by simp [he])) (' ' :: '@' :: citationEntryStr e2) hfirst2
    unfold pySplit1 at this
    rw [this]
    simp

theorem foldl_laterParts (rest : List (Str × Option Str)) :
    ∀ acc, (∀ e ∈ rest, plainKey e.1 ∧ ∀ l, e.2 = some l → plainLocator l) →
    List.foldl citationEntryStep acc
        (rest.map (fun e2 => ' ' :: '@' :: citationEntryStr e2))
      = acc ++ rest := by
  induction rest with
  | nil => intro acc _; simp
  | cons e rest' ih =>
    intro acc hv
    obtain ⟨k, opt⟩ := e
    simp only [List.map_cons, List.foldl_cons]
    have hk : plainKey k := (hv (k, opt) (by simp)).1
    have hstep : citationEntryStep acc (' ' :: '@' :: citationEntryStr (k, opt))
        = acc ++ [(k, opt)] := by
      cases opt with
      | none => exact citationEntryStep_later_key acc k hk
      | some loc =>
        exact citationEntryStep_later_key_loc acc k loc hk
          ((hv (k, some loc) (by simp)).2 loc rfl)
    rw [hstep, ih (acc ++ [(k, opt)]) (fun e he => hv e (by simp [he]))]
    simp

theorem parse_serializeCitation (entries : List (Str × Option Str))
    (hv : ∀ e ∈ entries, plainKey e.1 ∧ ∀ l, e.2 = some l → plainLocator l)
    (hne : entries ≠ []) :
    parseCitationEntries (serializeCitation entries) = entries := by
  cases entries with
  | nil => exact absurd rfl hne
  | cons e rest =>
    unfold parseCitationEntries serializeCitation
    have hE := hv e (by simp)
    rw [show pySplit1 (citationEntryStr e ++
          rest.flatMap (fun e2 => ';' :: ' ' :: '@' :: citationEntryStr e2)) ';'
        = citationEntryStr e :: rest.map (fun e2 => ' ' :: '@' :: citationEntryStr e2) from
      split_serialized rest
        (fun e2 he2 => citationEntryStr_no_semicolon e2 (hv e2 (by simp [he2])).1
          (hv e2 (by simp [he2])).2)
        (citationEntryStr e) (citationEntryStr_no_semicolon e hE.1 hE.2)]
    rw [List.foldl_cons]
    have hfirst : citationEntryStep [] (citationEntryStr e) = [e] := by
      obtain ⟨k, opt⟩ := e
      cases opt with
      | none => exact citationEntryStep_key [] k hE.1
      | some loc => exact citationEntryStep_key_loc [] k loc hE.1 (hE.2 loc rfl)
    rw [hfirst]
    rw [foldl_laterParts rest [e] (fun e2 he2 => hv e2 (by simp [he2]))]
    rfl

-- ------------------------------------------------------------------
-- C5: rendering under the default configuration
-- ------------------------------------------------------------------

theorem format_citation_default (keys : List Str) :
    CitationConfig.format_citation defaultCitationConfig keys
      = .ok ("\\cite\x7b".data ++ (pyJoin ",".data keys ++ "\x7d".data)) := rfl

theorem format_with_locator_default (k loc : Str) :
    CitationConfig.format_citation_with_locator defaultCitationConfig [k] loc
      = .ok ("\\cite[".data ++ (loc ++ ("]\x7b".data ++ (k ++ "\x7d".data)))) := rfl

theorem renderEntry_none (k : Str) :
    renderCitationEntry defaultCitationConfig (k, Option.none)
      = .ok ("\\cite\x7b".data ++ (k ++ "\x7d".data)) := rfl

theorem renderEntry_some (k loc : Str) (hloc : loc ≠ []) :
    renderCitationEntry defaultCitationConfig (k, some loc)
      = .ok ("\\cite[".data ++ (loc ++ ("]\x7b".data ++ (k ++ "\x7d".data)))) := by
  have hie : loc.isEmpty = false := by
    cases loc with
    | nil => exact absurd rfl hloc
    | cons a l => rfl
  show (if List.isEmpty loc = true then defaultCitationConfig.format_citation [k]
    else defaultCitationConfig.format_citation_with_locator [k] loc) = _
  rw [hie]
  simp only [Bool.false_eq_true, if_false]
  exact format_with_locator_default k loc

theorem mapM_render_noloc (keys : List Str) :
    List.mapM (renderCitationEntry defaultCitationConfig)
        (keys.map (fun k => (k, Option.none)))
      = .ok (keys.map (fun k => "\\cite\x7b".data ++ (k ++ "\x7d".data))) := by
  induction keys with
  | nil => rfl
  | cons k ks ih =>
    simp only [List.map_cons, List.mapM_cons]
    rw [renderEntry_none k, ok_bind, ih, ok_bind]
    rfl

/-- C5: for every citation configuration and every semicolon-separated
marker built from well-formed entries: when no entry carries a locator,
the result is the single combined citation call on all keys (whose keys
are joined by the configured separator inside `format_citation`); when
any entry carries a locator — wherever it sits, and however many
entries carry one — each entry is rendered individually (with its
locator when present, without otherwise) and the renderings are joined
by the configured multi-cite separator.  Under the defaults, `[@a; @b]`
becomes `\cite{a,b}`, `[@a, p. 2]` becomes `\cite[p. 2]{a}`,
`[@a; @b, p. 2]` becomes `\cite{a} \cite[p. 2]{b}` and
`[@a, p. 1; @b, p. 2]` becomes `\cite[p. 1]{a} \cite[p. 2]{b}`. -/
theorem citation_rendering_spec :
    (∀ (cfg : CitationConfig) (entries : List (Str × Option Str)),
      (∀ e ∈ entries, plainKey e.1 ∧ ∀ l, e.2 = some l → plainLocator l) →
      entries ≠ [] →
      (entries.all (fun e => e.2.isNone) = true →
        formatCitationRaw cfg (serializeCitation entries)
          = cfg.format_citation (entries.map Prod.fst)) ∧
      (entries.all (fun e => e.2.isNone) = false →
        formatCitationRaw cfg (serializeCitation entries)
          = do
              let rendered ← entries.mapM (renderCitationEntry cfg)
              pure (pyJoin cfg.multi_cite_separator rendered)))
    ∧ formatCitationRaw defaultCitationConfig "a; @b".data = .ok "\\cite\x7ba,b\x7d".data
    ∧ formatCitationRaw defaultCitationConfig "a, p. 2".data
        = .ok "\\cite[p. 2]\x7ba\x7d".data
    ∧ formatCitationRaw defaultCitationConfig "a; @b, p. 2".data
        = .ok "\\cite\x7ba\x7d \\cite[p. 2]\x7bb\x7d".data
    ∧ formatCitationRaw defaultCitationConfig "a, p. 1; @b, p. 2".data
        = .ok "\\cite[p. 1]\x7ba\x7d \\cite[p. 2]\x7bb\x7d".data := by
  refine ⟨?_, rfl, rfl, rfl, rfl⟩
  intro cfg entries hv hne
  have hparse := parse_serializeCitation entries hv hne
  have hie : entries.isEmpty = false := by
    cases entries with
    | nil => exact absurd rfl hne
    | cons e r => rfl
  constructor
  · intro hall
    unfold formatCitationRaw
    rw [hparse, hie]
    simp only [Bool.false_eq_true, if_false]
    rw [hall]
    simp only [if_true]
  · intro hsome
    unfold formatCitationRaw
    rw [hparse, hie]
    simp only [Bool.false_eq_true, if_false]
    rw [hsome]
    simp only [Bool.false_eq_true, if_false]

end Loretex

namespace Loretex

/-- Witness for C5: the marker `[@a; @b, p. 2]` — the locator on the
second entry — instantiates the any-locator branch of the general law
at the default configuration. -/
theorem citation_rendering_spec_witness :
    ([("a".data, (Option.none : Option Str)), ("b".data, some "p. 2".data)]
        ≠ ([] : List (Str × Option Str))) ∧
    ([("a".data, (Option.none : Option Str)), ("b".data, some "p. 2".data)].all
        (fun e => e.2.isNone) = false) ∧
    formatCitationRaw defaultCitationConfig
        (serializeCitation [("a".data, Option.none), ("b".data, some "p. 2".data)])
      = (do
          let rendered ← [("a".data, (Option.none : Option Str)),
              ("b".data, some "p. 2".data)].mapM
            (renderCitationEntry defaultCitationConfig)
          pure (pyJoin defaultCitationConfig.multi_cite_separator rendered)) :=
  ⟨by decide, by decide,
   (citation_rendering_spec.1 defaultCitationConfig
      [("a".data, Option.none), ("b".data, some "p. 2".data)]
      (fun e he => by
        rcases List.mem_cons.mp he with rfl | he2
        · exact ⟨by decide, fun l hl => Option.noConfusion hl⟩
        · rcases List.mem_cons.mp he2 with rfl | he3
          · refine ⟨by decide, fun l hl => ?_⟩
            injection hl with hl
            subst hl
            decide
          · cases he3)
      (by decide)).2 rfl⟩

end Loretex

namespace Loretex

-- ------------------------------------------------------------------
-- C4: inline-code protection is unreachable (missing attribute)
-- ------------------------------------------------------------------

theorem convertNonCode_error (cfg : ConversionConfig) (t : Str) :
    ∃ e, convertNonCode cfg t = .error e := by
  unfold convertNonCode
  split
  · exact ⟨_, rfl⟩
  · exact ⟨_, rfl⟩

theorem convert_always_raises (cfg : ConversionConfig) (s : Str) :
    ∃ e, convertInline cfg s = .error e := by
  unfold convertInline
  simp only [convertInlineF]
  cases hf : findCodeSpan s with
  | none => exact convertNonCode_error cfg s
  | some triple =>
    obtain ⟨b, code, a⟩ := triple
    obtain ⟨e, he⟩ := convertNonCode_error cfg b
    show ∃ e2, (do
        let b2 ← convertNonCode cfg b
        let rest ← convertInlineF cfg s.length a
        pure (b2 ++ formatInlineCode cfg code ++ rest) : Except PyErr Str) = .error e2
    rw [he]
    exact ⟨e, rfl⟩

/-- C4: the claim's protected-code-span behaviour cannot be observed:
`InlineTransformer.convert` raises `AttributeError` on every input
(`_apply_custom_markers` reads the undeclared field
`InlineConfig.custom_markers`, inline.py line 165 against config.py
lines 59-70); in particular it raises on `` `**x**` `` instead of
returning `\texttt{**x**}`.  The code-span formatter itself
(`_format_inline_code`) does produce `\texttt{**x**}`, with no bold
substitution applied inside the span. -/
theorem inline_code_span_attribute_error :
    convertInline defaultConversionConfig "`**x**`".data
        = .error (.attributeError "InlineConfig".data "custom_markers".data)
    ∧ formatInlineCode defaultConversionConfig "**x**".data = "\\texttt\x7b**x**\x7d".data
    ∧ (∀ (cfg : ConversionConfig) (s : Str), ∃ e, convertInline cfg s = .error e) :=
  ⟨rfl, rfl, convert_always_raises⟩

-- ------------------------------------------------------------------
-- Parser: the raise statements are unreachable (claim C1)
-- ------------------------------------------------------------------

theorem notRaised_bind {α β : Type} {x : Except PFail α} {g : α → Except PFail β}
    (hx : notRaised x = true) (hg : ∀ a, notRaised (g a) = true) :
    notRaised (x >>= g) = true := by
  cases x with
  | ok a => exact hg a
  | error e =>
    rw [error_bind]
    cases e with
    | raised pe => exact hx
    | outOfFuel => rfl

theorem parseCodeBlock_notRaised (idx : Nat) (l : Str) (rest : List Str)
    (h : isCodeFenceStart (normalizedLine l) = true) :
    notRaised (parseCodeBlock idx (l :: rest)) = true := by
  rw [isCodeFenceStart] at h
  cases hm : matchCodeFence (normalizedLine l) with
  | none => rw [hm] at h; simp at h
  | some m => simp [parseCodeBlock, hm, notRaised]

theorem parseHeading_notRaised (line : Str) (idx : Nat)
    (h : isHeading line = true) :
    notRaised (parseHeading line idx) = true := by
  rw [isHeading] at h
  cases hm : matchHeading line with
  | none => rw [hm] at h; simp at h
  | some m => simp [parseHeading, hm, notRaised]

theorem parseImageLine_notRaised (line : Str) (idx : Nat)
    (h : isImageLine line = true) :
    notRaised (parseImageLine line idx) = true := by
  rw [isImageLine] at h
  cases hm : matchImageLine line with
  | none => rw [hm] at h; simp at h
  | some m => simp [parseImageLine, hm, notRaised]

theorem parser_noRaise_all : ∀ f : Nat,
    (∀ idx ls, notRaised (parseLinesGo f idx ls) = true) ∧
    (∀ idx l rest, isCalloutHeader l = true →
      notRaised (parseCallout f idx (l :: rest)) = true) ∧
    (∀ idx l rest, isListItem (normalizedLine l) = true →
      notRaised (parseList f idx (l :: rest)) = true) ∧
    (∀ base ordered ls, notRaised (parseListItems f base ordered ls) = true) ∧
    (∀ base cindent content rest,
      notRaised (parseListItem f base cindent content rest) = true) := by
  intro f
  induction f with
  | zero =>
    exact ⟨fun _ _ => rfl, fun _ _ _ _ => rfl, fun _ _ _ _ => rfl,
      fun _ _ _ => rfl, fun _ _ _ _ => rfl⟩
  | succ f ih =>
    obtain ⟨ihLines, ihCallout, ihList, ihItems, ihItem⟩ := ih
    refine ⟨?_, ?_, ?_, ?_, ?_⟩
    · intro idx ls
      cases ls with
      | nil => rfl
      | cons l rest =>
        simp only [parseLinesGo]
        split
        · exact ihLines _ _
        · split
          · rename_i hc
            exact notRaised_bind (ihCallout idx l rest hc)
              (fun pr => notRaised_bind (ihLines _ _) (fun _ => rfl))
          · split
            · rename_i hcf
              exact notRaised_bind (parseCodeBlock_notRaised idx l rest hcf)
                (fun pr => notRaised_bind (ihLines _ _) (fun _ => rfl))
            · split
              · exact notRaised_bind (ihLines _ _) (fun _ => rfl)
              · split
                · rename_i hh
                  exact notRaised_bind (parseHeading_notRaised _ idx hh)
                    (fun _ => notRaised_bind (ihLines _ _) (fun _ => rfl))
                · split
                  · rename_i hli
                    exact notRaised_bind (ihList idx l rest hli)
                      (fun pr => notRaised_bind (ihLines _ _) (fun _ => rfl))
                  · split
                    · rename_i him
                      exact notRaised_bind (parseImageLine_notRaised _ idx him)
                        (fun _ => notRaised_bind (ihLines _ _) (fun _ => rfl))
                    · split
                      · exact notRaised_bind (ihLines _ _) (fun _ => rfl)
                      · split
                        · exact notRaised_bind (ihLines _ _) (fun _ => rfl)
                        · exact notRaised_bind (ihLines _ _) (fun _ => rfl)
    · intro idx l rest hc
      simp only [parseCallout]
      split
      · rename_i hm
        rw [isCalloutHeader, hm] at hc; simp at hc
      · exact notRaised_bind (ihLines _ _) (fun _ => rfl)
    · intro idx l rest hl
      simp only [parseList]
      split
      · rename_i hm
        rw [isListItem, hm] at hl; simp at hl
      · exact notRaised_bind (ihItems _ _ _) (fun _ => rfl)
    · intro base ordered ls
      cases ls with
      | nil => rfl
      | cons l rest =>
        simp only [parseListItems]
        split
        · exact notRaised_bind (ihItems _ _ _) (fun _ => rfl)
        · split
          · rfl
          · split
            · rfl
            · split
              · rfl
              · exact notRaised_bind (ihItem _ _ _ _)
                  (fun pr => notRaised_bind (ihItems _ _ _) (fun _ => rfl))
    · intro base cindent content rest
      simp only [parseListItem]
      split <;> split <;> first
        | rfl
        | exact notRaised_bind (ihLines _ _) (fun _ => rfl)

/-- C1 (amended): the five `raise` statements of the parser are
unreachable — each `_parse_*` helper is invoked only after the
corresponding `_is_*` predicate has already matched the same line, so
no input makes `MarkdownParser.parse` raise a `ParsingError`; malformed
structural constructs instead fall back to paragraph text (see the
counterexample theorem). -/
theorem malformed_construct_spec :
    (∀ fuel idx lines, notRaised (parseLinesGo fuel idx lines) = true) ∧
    (∀ source, notRaised (parseMarkdown source) = true) :=
  ⟨fun fuel idx lines => (parser_noRaise_all fuel).1 idx lines,
   fun source =>
    notRaised_bind ((parser_noRaise_all _).1 0 (pySplitlines source)) (fun _ => rfl)⟩

/-- C1 counterexample: the source `# ok` + newline + `<img src="fig.svg">`
contains a malformed image tag (no `width` attribute), yet `parse`
returns a document — the Section from the first line plus the offending
line as a `Paragraph` — instead of raising `InvalidImageError`; there
is partial (in fact total) output and no hard stop. -/
theorem malformed_construct_counterexample :
    parseMarkdown "# ok\n<img src=\"fig.svg\">".data
      = .ok (.Document [.Section 1 "ok".data, .Paragraph "<img src=\"fig.svg\">".data]) := rfl

-- ------------------------------------------------------------------
-- Parser: table shapes (claim C7)
-- ------------------------------------------------------------------

theorem isEmpty_false_of_ne_nil {α : Type} {l : List α} (h : l ≠ []) : l.isEmpty = false := by
  cases l with
  | nil => exact absurd rfl h
  | cons a t => rfl

theorem pySplitChar_ne_nil (sep : Char) : ∀ (s acc : Str), pySplitChar sep acc s ≠ [] := by
  intro s
  induction s with
  | nil => intro acc; simp [pySplitChar]
  | cons c cs ih =>
    intro acc
    simp only [pySplitChar]
    split
    · simp
    · exact ih _

theorem parseTableRow_ne_nil (line : Str) : parseTableRow line ≠ [] := by
  rw [parseTableRow]
  intro h
  exact pySplitChar_ne_nil '|' _ _ (List.map_eq_nil_iff.mp h)

theorem parseAlignments_ne_nil (line : Str) : parseAlignments line ≠ [] := by
  rw [parseAlignments]
  intro h
  exact pySplitChar_ne_nil '|' _ _ (List.map_eq_nil_iff.mp h)

theorem tableRows_all_ne_nil :
    ∀ ls : List Str, ((tableRows ls).1.all (fun r => !r.isEmpty)) = true := by
  intro ls
  induction ls with
  | nil => rfl
  | cons l rest ih =>
    simp only [tableRows]
    split
    · simp [List.all_cons, isEmpty_false_of_ne_nil (parseTableRow_ne_nil _), ih]
    · rfl

theorem parseTable_tablesWF : ∀ ls : List Str, nodeTablesWF (parseTable ls).1 = true := by
  intro ls
  cases ls with
  | nil => rfl
  | cons l1 ls2 =>
    cases ls2 with
    | nil => rfl
    | cons l2 rest =>
      show nodeTablesWF (.Table (parseAlignments (pyStrip (normalizedLine l2)))
        (parseTableRow (pyStrip (normalizedLine l1))) (tableRows rest).1) = true
      simp only [nodeTablesWF]
      rw [isEmpty_false_of_ne_nil (parseAlignments_ne_nil _),
          isEmpty_false_of_ne_nil (parseTableRow_ne_nil _)]
      simp [tableRows_all_ne_nil rest]

theorem exceptPred_bind {α β : Type} {p : α → Bool} {q : β → Bool}
    {x : Except PFail α} {g : α → Except PFail β}
    (hx : exceptPred p x = true) (hg : ∀ a, p a = true → exceptPred q (g a) = true) :
    exceptPred q (x >>= g) = true := by
  cases x with
  | ok a => rw [ok_bind]; exact hg a hx
  | error e => rw [error_bind]; rfl

theorem parseCodeBlock_tablesWF (idx : Nat) (ls : List Str) :
    exceptPred (fun pr => nodeTablesWF pr.1) (parseCodeBlock idx ls) = true := by
  cases ls with
  | nil => rfl
  | cons l rest =>
    simp only [parseCodeBlock]
    split
    · rfl
    · rfl

theorem parseMathBlock_tablesWF : ∀ ls : List Str, nodeTablesWF (parseMathBlock ls).1 = true := by
  intro ls
  cases ls with
  | nil => rfl
  | cons l rest =>
    simp only [parseMathBlock]
    split
    · rfl
    · split
      · rfl
      · split
        · rfl
        · rfl

theorem parseHeading_tablesWF (line : Str) (idx : Nat) :
    exceptPred (fun node => nodeTablesWF node) (parseHeading line idx) = true := by
  simp only [parseHeading]
  split
  · rfl
  · rfl

theorem parseImageLine_tablesWF (line : Str) (idx : Nat) :
    exceptPred (fun node => nodeTablesWF node) (parseImageLine line idx) = true := by
  simp only [parseImageLine]
  split
  · rfl
  · rfl

theorem parser_tablesWF_all : ∀ f : Nat,
    (∀ idx ls, exceptPred nodesTablesWF (parseLinesGo f idx ls) = true) ∧
    (∀ idx ls, exceptPred (fun pr => nodeTablesWF pr.1) (parseCallout f idx ls) = true) ∧
    (∀ idx ls, exceptPred (fun pr => nodeTablesWF pr.1) (parseList f idx ls) = true) ∧
    (∀ base ordered ls,
      exceptPred (fun pr => nodesTablesWF pr.1) (parseListItems f base ordered ls) = true) ∧
    (∀ base cindent content rest,
      exceptPred (fun pr => nodeTablesWF pr.1)
        (parseListItem f base cindent content rest) = true) := by
  intro f
  induction f with
  | zero =>
    exact ⟨fun _ _ => rfl, fun _ _ => rfl, fun _ _ => rfl, fun _ _ _ => rfl,
      fun _ _ _ _ => rfl⟩
  | succ f ih =>
    obtain ⟨ihLines, ihCallout, ihList, ihItems, ihItem⟩ := ih
    refine ⟨?_, ?_, ?_, ?_, ?_⟩
    · intro idx ls
      cases ls with
      | nil => rfl
      | cons l rest =>
        simp only [parseLinesGo]
        split
        · exact ihLines _ _
        · split
          · refine exceptPred_bind (ihCallout _ _) (fun pr hpr => ?_)
            refine exceptPred_bind (ihLines _ _) (fun nodes hnodes => ?_)
            show nodesTablesWF (pr.1 :: nodes) = true
            simp [nodesTablesWF, hpr, hnodes]
          · split
            · refine exceptPred_bind (parseCodeBlock_tablesWF idx _) (fun pr hpr => ?_)
              refine exceptPred_bind (ihLines _ _) (fun nodes hnodes => ?_)
              show nodesTablesWF (pr.1 :: nodes) = true
              simp [nodesTablesWF, hpr, hnodes]
            · split
              · refine exceptPred_bind (ihLines _ _) (fun nodes hnodes => ?_)
                show nodesTablesWF ((parseMathBlock (l :: rest)).1 :: nodes) = true
                simp [nodesTablesWF, parseMathBlock_tablesWF, hnodes]
              · split
                · refine exceptPred_bind (parseHeading_tablesWF _ idx) (fun node hnode => ?_)
                  refine exceptPred_bind (ihLines _ _) (fun nodes hnodes => ?_)
                  show nodesTablesWF (node :: nodes) = true
                  simp [nodesTablesWF, hnode, hnodes]
                · split
                  · refine exceptPred_bind (ihList _ _) (fun pr hpr => ?_)
                    refine exceptPred_bind (ihLines _ _) (fun nodes hnodes => ?_)
                    show nodesTablesWF (pr.1 :: nodes) = true
                    simp [nodesTablesWF, hpr, hnodes]
                  · split
                    · refine exceptPred_bind (parseImageLine_tablesWF _ idx)
                        (fun node hnode => ?_)
                      refine exceptPred_bind (ihLines _ _) (fun nodes hnodes => ?_)
                      show nodesTablesWF (node :: nodes) = true
                      simp [nodesTablesWF, hnode, hnodes]
                    · split
                      · refine exceptPred_bind (ihLines _ _) (fun nodes hnodes => ?_)
                        show nodesTablesWF ((parseTable (l :: rest)).1 :: nodes) = true
                        simp [nodesTablesWF, parseTable_tablesWF, hnodes]
                      · split
                        · refine exceptPred_bind (ihLines _ _) (fun nodes hnodes => ?_)
                          show nodesTablesWF (.HorizontalRule :: nodes) = true
                          simp [nodesTablesWF, nodeTablesWF, hnodes]
                        · refine exceptPred_bind (ihLines _ _) (fun nodes hnodes => ?_)
                          show nodesTablesWF
                            (.Paragraph (joinNewline
                              (normalizedLine l :: (paragraphLines rest).1)) :: nodes) = true
                          simp [nodesTablesWF, nodeTablesWF, hnodes]
    · intro idx ls
      cases ls with
      | nil => rfl
      | cons header rest =>
        simp only [parseCallout]
        split
        · rfl
        · rename_i m hm
          refine exceptPred_bind (ihLines _ _) (fun children hch => ?_)
          show nodeTablesWF (.Callout m.2.1 m.2.2 children) = true
          simp only [nodeTablesWF]
          exact hch
    · intro idx ls
      cases ls with
      | nil => rfl
      | cons l rest =>
        simp only [parseList]
        split
        · rfl
        · rename_i m hm
          refine exceptPred_bind (ihItems _ _ _) (fun pr hpr => ?_)
          show nodeTablesWF (.List (isOrderedMarker m.2.1) pr.1) = true
          simp only [nodeTablesWF]
          exact hpr
    · intro base ordered ls
      cases ls with
      | nil => rfl
      | cons l rest =>
        simp only [parseListItems]
        split
        · refine exceptPred_bind (ihItems _ _ _) (fun pr hpr => ?_)
          show nodesTablesWF pr.1 = true
          exact hpr
        · split
          · rfl
          · split
            · rfl
            · split
              · rfl
              · refine exceptPred_bind (ihItem _ _ _ _) (fun pr hpr => ?_)
                refine exceptPred_bind (ihItems _ _ _) (fun more hmore => ?_)
                show nodesTablesWF (pr.1 :: more.1) = true
                simp [nodesTablesWF, hpr, hmore]
    · intro base cindent content rest
      simp only [parseListItem]
      split
      · split
        · rfl
        · refine exceptPred_bind (ihLines _ _) (fun children hch => ?_)
          show nodeTablesWF (.ListItem children) = true
          simp only [nodeTablesWF]
          exact hch
      · split
        · rfl
        · refine exceptPred_bind (ihLines _ _) (fun children hch => ?_)
          show nodeTablesWF (.ListItem children) = true
          simp only [nodeTablesWF]
          exact hch

/-- C7 (amended): every `Table` node produced by the parser has a
non-empty alignments list, a non-empty header cell list and a non-empty
cell list in every row (pipe-splitting always yields at least one
cell), but `_parse_table` never compares the three counts: they are the
independent pipe-cell counts of their source lines and need not agree
(see the counterexample theorem). -/
theorem table_shape_spec :
    (∀ fuel idx lines, exceptPred nodesTablesWF (parseLinesGo fuel idx lines) = true) ∧
    (∀ source, exceptPred nodeTablesWF (parseMarkdown source) = true) :=
  ⟨fun fuel idx lines => (parser_tablesWF_all fuel).1 idx lines,
   fun source =>
    exceptPred_bind ((parser_tablesWF_all _).1 0 (pySplitlines source))
      (fun children hch => hch)⟩

/-- C7 counterexample: the source `| A | B |` / `|---|` / `| 1 | 2 | 3 |`
parses to a single `Table` whose alignment, header and row cell counts
are 1, 2 and 3 — the parser checks no column-count agreement. -/
theorem table_shape_counterexample :
    parseMarkdown "| A | B |\n|---|\n| 1 | 2 | 3 |".data
      = .ok (.Document [.Table ["l".data] ["A".data, "B".data]
          [["1".data, "2".data, "3".data]]])
    ∧ (["l".data] : List Str).length = 1
    ∧ (["A".data, "B".data] : List Str).length = 2
    ∧ ([["1".data, "2".data, "3".data]] : List (List Str)).map List.length = [3] :=
  ⟨rfl, rfl, rfl, rfl⟩

-- ------------------------------------------------------------------
-- Generator: horizontal rules make generation fail (claim C3)
-- ------------------------------------------------------------------

theorem containsHRList_exists :
    ∀ ns : List Node, containsHRList ns = true → ∃ n ∈ ns, containsHR n = true := by
  intro ns
  induction ns with
  | nil => intro h; simp [containsHRList] at h
  | cons a t ih =>
    intro h
    rw [containsHRList, Bool.or_eq_true] at h
    cases h with
    | inl ha => exact ⟨a, List.mem_cons_self a t, ha⟩
    | inr ht =>
      obtain ⟨n, hm, hn⟩ := ih ht
      exact ⟨n, List.mem_cons_of_mem a hm, hn⟩

theorem mapM_ok_forall {ε α β : Type} (g : α → Except ε β) :
    ∀ (ns : List α) (vs : List β), ns.mapM g = .ok vs → ∀ n ∈ ns, ∃ v, g n = .ok v := by
  intro ns
  induction ns with
  | nil => intro vs _ n hn; cases hn
  | cons a t ih =>
    intro vs hmap n hn
    rw [List.mapM_cons] at hmap
    cases hga : g a with
    | error e => rw [hga, error_bind] at hmap; cases hmap
    | ok v =>
      rw [hga, ok_bind] at hmap
      cases hmt : t.mapM g with
      | error e2 => rw [hmt, error_bind] at hmap; cases hmap
      | ok vs2 =>
        cases hn with
        | head => exact ⟨v, hga⟩
        | tail _ hmem => exact ih vs2 hmt n hmem

theorem genNode_HR_all : ∀ f : Nat,
    (∀ (cfg : ConversionConfig) (n : Node), containsHR n = true →
      exceptIsOk (genNode cfg f n) = false) ∧
    (∀ (cfg : ConversionConfig) (n : Node), containsHR n = true →
      exceptIsOk (genListChild cfg f n) = false) := by
  intro f
  induction f with
  | zero => exact ⟨fun _ _ _ => rfl, fun _ _ _ => rfl⟩
  | succ f ih =>
    obtain ⟨ihNode, ihChild⟩ := ih
    constructor
    · intro cfg n h
      cases n with
      | Document children =>
        rw [containsHR] at h
        simp only [genNode]
        cases hm : children.mapM (genNode cfg f) with
        | error e => rw [error_bind]; rfl
        | ok vs =>
          obtain ⟨c, hcm, hc⟩ := containsHRList_exists children h
          obtain ⟨v, hv⟩ := mapM_ok_forall (genNode cfg f) children vs hm c hcm
          have hfalse := ihNode cfg c hc
          rw [hv] at hfalse
          simp [exceptIsOk] at hfalse
      | List ordered items =>
        rw [containsHR] at h
        simp only [genNode]
        cases hm : items.mapM (genNode cfg f) with
        | error e => rw [error_bind]; rfl
        | ok vs =>
          obtain ⟨c, hcm, hc⟩ := containsHRList_exists items h
          obtain ⟨v, hv⟩ := mapM_ok_forall (genNode cfg f) items vs hm c hcm
          have hfalse := ihNode cfg c hc
          rw [hv] at hfalse
          simp [exceptIsOk] at hfalse
      | ListItem content =>
        rw [containsHR] at h
        simp only [genNode]
        cases hm : content.mapM (genListChild cfg f) with
        | error e => rw [error_bind]; rfl
        | ok vs =>
          obtain ⟨c, hcm, hc⟩ := containsHRList_exists content h
          obtain ⟨v, hv⟩ := mapM_ok_forall (genListChild cfg f) content vs hm c hcm
          have hfalse := ihChild cfg c hc
          rw [hv] at hfalse
          simp [exceptIsOk] at hfalse
      | Callout callout_type title children =>
        rw [containsHR] at h
        simp only [genNode]
        cases hm : children.mapM (genNode cfg f) with
        | error e => rw [error_bind]; rfl
        | ok vs =>
          obtain ⟨c, hcm, hc⟩ := containsHRList_exists children h
          obtain ⟨v, hv⟩ := mapM_ok_forall (genNode cfg f) children vs hm c hcm
          have hfalse := ihNode cfg c hc
          rw [hv] at hfalse
          simp [exceptIsOk] at hfalse
      | HorizontalRule => rfl
      | Section level title => simp [containsHR] at h
      | Paragraph content => simp [containsHR] at h
      | CodeBlock language content => simp [containsHR] at h
      | MathBlock content => simp [containsHR] at h
      | Image source_path width_px => simp [containsHR] at h
      | Table alignments header rows => simp [containsHR] at h
    · intro cfg n h
      simp only [genListChild]
      split
      · rename_i c
        simp [containsHR] at h
      · cases hm : genNode cfg f n with
        | error e => rw [error_bind]; rfl
        | ok v =>
          have hfalse := ihNode cfg n h
          rw [hm] at hfalse
          simp [exceptIsOk] at hfalse

/-- C3: any standalone horizontal-rule line (such as `***`) parses to a
`HorizontalRule` node, and rendering any document containing a
`HorizontalRule` never returns a string: `visit_horizontal_rule` reads
`self._config.horizontal_rule`, a field `ConversionConfig` does not
declare, so generation fails with an attribute-lookup error for every
configuration and every fuel (under the default configuration, exactly
an `AttributeError` naming `ConversionConfig.horizontal_rule`). -/
theorem horizontal_rule_generation_fails :
    parseMarkdown "***".data = .ok (.Document [.HorizontalRule])
    ∧ (∀ (cfg : ConversionConfig) (fuel : Nat) (node : Node),
        containsHR node = true → exceptIsOk (genNode cfg fuel node) = false)
    ∧ generateLatex defaultConversionConfig (.Document [.HorizontalRule])
        = .error (.attributeError "ConversionConfig".data "horizontal_rule".data) :=
  ⟨rfl, fun cfg fuel node h => (genNode_HR_all fuel).1 cfg node h, rfl⟩

/-- Witness: the default configuration and the document parsed from
`***` instantiate the universally quantified failure law. -/
theorem horizontal_rule_generation_fails_witness :
    containsHR (.Document [.HorizontalRule]) = true
    ∧ exceptIsOk (genNode defaultConversionConfig 5 (.Document [.HorizontalRule])) = false :=
  ⟨rfl, horizontal_rule_generation_fails.2.1 defaultConversionConfig 5
    (.Document [.HorizontalRule]) rfl⟩

-- ------------------------------------------------------------------
-- Generator: colspan annotations (claim C8)
-- ------------------------------------------------------------------

/-- C8: the colspan mechanics themselves match the claim —
`_parse_cell_span` strips the trailing `{col=2}` annotation from
`x {col=2}` yielding `("x", 2, 1)` — but the emission loop converts the
cell content through `InlineTransformer.convert` before wrapping it in
`\multicolumn`, and `convert` raises `AttributeError` on every input
(the undeclared `InlineConfig.custom_markers`), so rendering any table
row (and a fortiori any table with a `{col=N}` cell) raises instead of
producing multicolumn output; the claimed behaviour is unobservable. -/
theorem colspan_annotation_crashes :
    parseCellSpan "x \x7bcol=2\x7d".data = .ok ("x".data, 2, 1)
    ∧ parseCellSpan "x \x7bcol=2, row=3\x7d  ".data = .ok ("x".data, 2, 3)
    ∧ renderTableRowCells defaultConversionConfig 4
        ["x \x7bcol=2\x7d".data, "y".data, "z".data]
        = .error (.attributeError "InlineConfig".data "custom_markers".data)
    ∧ generateLatex defaultConversionConfig
        (.Document [.Table ["l".data, "l".data, "l".data] ["A".data, "B".data, "C".data]
          [["x \x7bcol=2\x7d".data, "y".data, "z".data]]])
        = .error (.attributeError "InlineConfig".data "custom_markers".data) :=
  ⟨rfl, rfl, rfl, rfl⟩

-- ------------------------------------------------------------------
-- Engine: determinism and registry independence (claim C9)
-- ------------------------------------------------------------------

/-- C9: the conversion pipeline is a pure function of its in-memory
inputs.  The only module-level mutable state any phase can consult is
the transform registry `_TRANSFORMS`, modelled here as the explicit
`registry` argument; with a fixed transform list (and no
`transform_names` to resolve, as in `convert_string`), the output is
identical for any two registry states — in particular two runs on
identical `(source, config, transforms, overrides)` inputs return
identical results. -/
theorem conversion_deterministic :
    ∀ (reg1 reg2 : List (Str × (Node → Node))) (cfg : ConversionConfig)
      (transforms : List (Node → Node)) (source : Str) (overrides : PyVal),
      convertString reg1 cfg transforms [] source overrides
        = convertString reg2 cfg transforms [] source overrides :=
  fun _ _ _ _ _ _ => rfl

end Loretex
